import Mathlib

/-!
# Verification of the DNS record detection / replication pipeline

Shallow embedding of the core of the `mcp-cloudflare` server
(`src/unnamed/part_000`, regions around lines 1850-2749: the
`CloudflareApi` object, `detectDnsRecords`, `replicateDnsRecords`,
`importDnsRecords`, `checkNameserverPropagation`, `validateZoneSetup`,
`migrateDomainWithDetection`, `exportZoneFile`, `parseZoneFile` and the
`getDnsTypeNumber` helper), together with the record model of
`src/src/types.ts`.

Modelling conventions:
* JavaScript numbers that can be `NaN` (results of `parseInt`) are
  modelled by `JsNum`; all other numeric fields are `Int`/`Nat`.
* JavaScript truthiness of numbers (`0`, `NaN` falsy) and of strings
  (`""` falsy) is modelled by the `jsOr...` helpers.
* `async`/`throw` is modelled with `Except String`; a TypeScript
  function that catches everything and returns a structured value is
  modelled as a total Lean function.
* Network effects (the Cloudflare REST API and the dns.google resolver)
  are modelled as explicit oracle arguments: a resolver is a function
  from (name, record type) to a transport outcome, the provider's
  create-record endpoint is a function from the request body to an
  `Except`.  Functions additionally return the list of create-record
  requests they issued, so that "no call was attempted" is provable.
* Strings are processed through character-list helpers that mirror the
  JavaScript string operations used by the source (`split`, `trim`,
  `split(/\s+/)`, `parseInt`, `replace`, `startsWith`, `endsWith`).
-/

/-! ## JavaScript string and number primitives -/

/-- The whitespace characters relevant to the source's string handling
(JS `\s` restricted to the ASCII characters that can actually occur in
the strings the code manipulates). -/
def wsChar (c : Char) : Bool :=
  c = ' ' ∨ c = '\t' ∨ c = '\n' ∨ c = '\r'

/-- A JavaScript number that may be `NaN` (the possible results of
`parseInt`). -/
inductive JsNum where
  | nan : JsNum
  | int : Int → JsNum
deriving DecidableEq, Repr

/-- JS `x || d` for a possibly-NaN number: `NaN` and `0` are falsy. -/
def jsOrNum (x : JsNum) (d : Int) : Int :=
  match x with
  | .nan => d
  | .int i => if i = 0 then d else i

/-- JS `x || d` for an optional number field (absent and `0` falsy). -/
def jsOrInt (x : Option Int) (d : Int) : Int :=
  match x with
  | none => d
  | some i => if i = 0 then d else i

/-- JS `x || d` for an optional string (absent and `""` falsy). -/
def jsOrStr (x : Option String) (d : String) : String :=
  match x with
  | none => d
  | some s => if s = "" then d else s

/-- JS truthiness of an optional, possibly-NaN number (`undefined`,
`NaN` and `0` are falsy). -/
def jsTruthyNum (x : Option JsNum) : Bool :=
  match x with
  | none => false
  | some .nan => false
  | some (.int i) => ¬ (i = 0)

/-- Value of a decimal digit character. -/
def digitVal (c : Char) : Option Nat :=
  if c = '0' then some 0 else if c = '1' then some 1 else
  if c = '2' then some 2 else if c = '3' then some 3 else
  if c = '4' then some 4 else if c = '5' then some 5 else
  if c = '6' then some 6 else if c = '7' then some 7 else
  if c = '8' then some 8 else if c = '9' then some 9 else none

/-- Is `c` a decimal digit? -/
def isDigitChar (c : Char) : Bool := (digitVal c).isSome

/-- Value of a hexadecimal digit character. -/
def hexVal (c : Char) : Option Nat :=
  match digitVal c with
  | some v => some v
  | none =>
    if c = 'a' ∨ c = 'A' then some 10 else if c = 'b' ∨ c = 'B' then some 11 else
    if c = 'c' ∨ c = 'C' then some 12 else if c = 'd' ∨ c = 'D' then some 13 else
    if c = 'e' ∨ c = 'E' then some 14 else if c = 'f' ∨ c = 'F' then some 15 else none

/-- Is `c` a hexadecimal digit? -/
def isHexChar (c : Char) : Bool := (hexVal c).isSome

/-- Numeric value of a list of digit characters (most significant first),
relative to a digit-valuation function. -/
def digitsVal (val : Char → Option Nat) (ds : List Char) : Nat :=
  ds.foldl (fun a c => a * 10 + ((val c).getD 0)) 0

/-- Numeric value of a list of hex digit characters. -/
def hexDigitsVal (ds : List Char) : Nat :=
  ds.foldl (fun a c => a * 16 + ((hexVal c).getD 0)) 0

/-- JS `parseInt(s)` (radix unspecified) on a character list: skip
leading whitespace, one optional sign, a `0x`/`0X` prefix switches to
hexadecimal, then the maximal digit prefix; `NaN` when no digit was
consumed. -/
def jsParseIntList (cs : List Char) : JsNum :=
  let cs1 := cs.dropWhile wsChar
  let neg : Bool := cs1.head? = some '-'
  let body :=
    if cs1.head? = some '-' ∨ cs1.head? = some '+' then cs1.tail else cs1
  let hex : Bool :=
    body.head? = some '0' ∧ (body.get? 1 = some 'x' ∨ body.get? 1 = some 'X')
  if hex then
    let hs := (body.drop 2).takeWhile isHexChar
    if hs = [] then .nan
    else .int (if neg then -(hexDigitsVal hs : Int) else (hexDigitsVal hs : Int))
  else
    let ds := body.takeWhile isDigitChar
    if ds = [] then .nan
    else .int (if neg then -(digitsVal digitVal ds : Int) else (digitsVal digitVal ds : Int))

/-- JS `parseInt(s)` on a string. -/
def jsParseInt (s : String) : JsNum := jsParseIntList s.data

/-- JS `parseInt(x)` where `x` may be `undefined` (e.g. `parts[1]` of a
too-short split): `parseInt(undefined)` is `NaN`. -/
def jsParseIntOpt (s : Option String) : JsNum :=
  match s with
  | none => .nan
  | some s => jsParseInt s

/-- Decimal digit character for a value below ten. -/
def digitChar (n : Nat) : Char :=
  match n with
  | 0 => '0' | 1 => '1' | 2 => '2' | 3 => '3' | 4 => '4'
  | 5 => '5' | 6 => '6' | 7 => '7' | 8 => '8' | 9 => '9'
  | _ => '*'

/-- Decimal digits of a natural number, with structural fuel
(`fuel > n` suffices; see `natDigitsGo_eq`). -/
def natDigitsGo : Nat → Nat → List Char
  | 0, _ => []
  | fuel + 1, n =>
    if n < 10 then [digitChar n]
    else natDigitsGo fuel (n / 10) ++ [digitChar (n % 10)]

/-- Decimal digits of a natural number (JS number-to-string for a
non-negative integer). -/
def natDigits (n : Nat) : List Char := natDigitsGo (n + 1) n

/-- JS string conversion of a non-negative integer. -/
def natRepr (n : Nat) : String := ⟨natDigits n⟩

/-- JS string conversion of an integer (template-literal `${n}`). -/
def intRepr (i : Int) : String :=
  if i < 0 then "-" ++ natRepr i.natAbs else natRepr i.toNat

/-- JS string conversion of a possibly-NaN number. -/
def jsNumRepr (x : JsNum) : String :=
  match x with
  | .nan => "NaN"
  | .int i => intRepr i

/-- JS `s.split(c)` for a single-character separator: never empty,
keeps empty fields (`"a,,b"` gives three fields, `""` gives `[""]`). -/
def splitCharList (sep : Char) : List Char → List (List Char)
  | [] => [[]]
  | c :: cs =>
    if c = sep then [] :: splitCharList sep cs
    else
      match splitCharList sep cs with
      | [] => [[c]]
      | w :: ws => (c :: w) :: ws

/-- JS `s.split(c)` on strings. -/
def jsSplitChar (s : String) (sep : Char) : List String :=
  (splitCharList sep s.data).map String.mk

/-- The whitespace-separated words of a character list.  On a trimmed
non-empty string this is exactly JS `s.split(/\s+/)`. -/
def wordsList : List Char → List (List Char)
  | [] => []
  | c :: cs =>
    if wsChar c then wordsList cs
    else
      match cs with
      | [] => [[c]]
      | c2 :: _ =>
        if wsChar c2 then [c] :: wordsList cs
        else
          match wordsList cs with
          | [] => [[c]]
          | w :: ws => (c :: w) :: ws

/-- JS `s.split(/\s+/)` on a trimmed string. -/
def splitWs (s : String) : List String := (wordsList s.data).map String.mk

/-- Drop trailing whitespace of a character list. -/
def trimEndList (l : List Char) : List Char :=
  (l.reverse.dropWhile wsChar).reverse

/-- JS `s.trim()` on a character list. -/
def trimList (l : List Char) : List Char :=
  trimEndList (l.dropWhile wsChar)

/-- JS `s.trim()`. -/
def jsTrim (s : String) : String := ⟨trimList s.data⟩

/-- JS `s.startsWith(p)`. -/
def jsStartsWith (s p : String) : Bool := p.data.isPrefixOf s.data

/-- JS `s.endsWith(p)`. -/
def jsEndsWith (s p : String) : Bool := p.data.isSuffixOf s.data

/-- JS `s.includes(c)` for a single character. -/
def jsIncludesChar (s : String) (c : Char) : Bool := s.data.contains c

/-- JS `s.toLowerCase()` (ASCII). -/
def jsToLower (s : String) : String := s.toLower

/-- JS `s.replace(pat, repl)` with a string pattern: replaces the first
occurrence only. -/
def replaceFirstList (pat repl : List Char) : List Char → List Char
  | [] => if pat = [] then repl else []
  | c :: cs =>
    if pat.isPrefixOf (c :: cs) then repl ++ (c :: cs).drop pat.length
    else c :: replaceFirstList pat repl cs

/-- JS `s.replace(pat, repl)` on strings (first occurrence only). -/
def jsReplaceFirst (s pat repl : String) : String :=
  ⟨replaceFirstList pat.data repl.data s.data⟩

/-- Concatenation of lists with a separator
(the shape of JS `Array.prototype.join`). -/
def intercalateList (sep : List Char) : List (List Char) → List Char
  | [] => []
  | [w] => w
  | w :: ws => w ++ sep ++ intercalateList sep ws

/-- JS `parts.join(" ")`. -/
def joinSpace (parts : List String) : String :=
  ⟨intercalateList [' '] (parts.map String.data)⟩

/-- JS `parts.join(", ")`. -/
def joinCommaSpace (parts : List String) : String :=
  ⟨intercalateList [',', ' '] (parts.map String.data)⟩

/-- A string is whitespace-canonical when re-joining its whitespace
words with single spaces reproduces it (no leading/trailing whitespace,
all separators a single space). -/
def wsCanonical (s : String) : Prop := joinSpace (splitWs s) = s

instance (s : String) : Decidable (wsCanonical s) := by
  unfold wsCanonical; infer_instance

/-! ## Record model (`src/src/types.ts`) -/

/-- `DnsRecordType`: the closed record-type enumeration of the zod
schemas (PTR is provider-side only). -/
inductive RecordType where
  | A | AAAA | CNAME | MX | TXT | NS | SRV | CAA | PTR
deriving DecidableEq, Repr

/-- The string form of a record type (as stored in the JSON fields). -/
def typeToString (t : RecordType) : String :=
  match t with
  | .A => "A" | .AAAA => "AAAA" | .CNAME => "CNAME" | .MX => "MX"
  | .TXT => "TXT" | .NS => "NS" | .SRV => "SRV" | .CAA => "CAA" | .PTR => "PTR"

/-- `DnsRecordImport` (zod): a provider-agnostic record descriptor, the
output of detection and the input of import.  `priority` is
`Option JsNum` because `detectDnsRecords` stores a raw `parseInt`
result there, which can be `NaN`. -/
structure DnsRecordImportType where
  type : RecordType
  name : String
  content : String
  ttl : Option Int := none
  priority : Option JsNum := none
  proxied : Option Bool := none
deriving DecidableEq, Repr

/-- `CreateDnsRecord` (zod `CreateDnsRecordRequest`): the body of a
create-record call.  In every call site of this development `ttl` has
already been filled in (zod default 1). -/
structure CreateDnsRecord where
  type : RecordType
  name : String
  content : String
  ttl : Int := 1
  priority : Option JsNum := none
  proxied : Option Bool := none
deriving DecidableEq, Repr

/-- `DnsRecord` (zod `CloudflareDnsRecord`): a record as stored by the
provider. -/
structure DnsRecord where
  id : String
  zone_id : Option String := none
  name : String
  type : RecordType
  content : String
  proxied : Option Bool := none
  ttl : Int
  priority : Option JsNum := none
  created_on : String := ""
  modified_on : String := ""
deriving DecidableEq, Repr

/-- Zone status enumeration of the zod `CloudflareZone` schema. -/
inductive ZoneStatus where
  | active | pending | initializing | moved | deleted | deactivated
deriving DecidableEq, Repr

/-- The string form of a zone status. -/
def statusToString (s : ZoneStatus) : String :=
  match s with
  | .active => "active" | .pending => "pending" | .initializing => "initializing"
  | .moved => "moved" | .deleted => "deleted" | .deactivated => "deactivated"

/-- Zone type enumeration (the source's "full" / "partial"; the second
constructor is renamed because its source name is a Lean keyword). -/
inductive ZoneType where
  | full | partialZone
deriving DecidableEq, Repr

/-- `Zone` (zod `CloudflareZone`, restricted to the fields the verified
operations read). -/
structure Zone where
  id : String
  name : String
  status : ZoneStatus
  paused : Bool := false
  type : ZoneType := .full
  name_servers : List String
  original_name_servers : Option (List String) := none
  created_on : String := ""
  modified_on : String := ""
deriving DecidableEq, Repr

/-- `CreateZone` (zod `CreateZoneRequest`, defaults already applied). -/
structure CreateZone where
  name : String
  type : ZoneType := .full
  jump_start : Bool := false
deriving DecidableEq, Repr

/-- The module-level `cloudflareConfig` record. -/
structure CloudflareConfig where
  apiToken : String
  zoneId : String
  email : Option String := none
deriving DecidableEq, Repr

/-- The result shape of `replicateDnsRecords`. -/
structure ReplicationResult where
  detected : List DnsRecordImportType
  replicated : List DnsRecord
  errors : List String
deriving DecidableEq, Repr

/-- The result shape of `migrateDomainWithDetection`. -/
structure MigrationResult where
  zone : Zone
  detected : List DnsRecordImportType
  replicated : List DnsRecord
  errors : List String
  nextSteps : List String
deriving DecidableEq, Repr

/-! ## Public resolver probe (dns.google JSON API) -/

/-- One element of the resolver's `Answer` array. -/
structure RawAnswer where
  type : Int
  data : String
  TTL : Option Int := none
deriving DecidableEq, Repr

/-- The resolver's response body `{Status, Answer?}`. -/
structure DnsResponse where
  Status : Int
  Answer : Option (List RawAnswer) := none
deriving DecidableEq, Repr

/-- A resolver oracle: `fetch` + `json()` for
`https://dns.google/resolve?name=...&type=...`, indexed by name and
type; `.error ()` models a transport or JSON failure (a rejected
promise). -/
def Resolver := String → String → Except Unit DnsResponse

/-! ## Detection engine (`detectDnsRecords`, part_000 lines 2402-2495) -/

/-- `getDnsTypeNumber` (part_000 lines 2676-2688): the numeric DNS code
for a type string, defaulting to 1 (`typeMap[type] || 1`). -/
def getDnsTypeNumber (t : String) : Int :=
  if t = "A" then 1 else if t = "AAAA" then 28 else if t = "CNAME" then 5
  else if t = "MX" then 15 else if t = "TXT" then 16 else if t = "NS" then 2
  else if t = "SRV" then 33 else if t = "CAA" then 257 else 1

/-- The fixed type list probed for the base domain
(`recordTypes`, lines 2407-2416). -/
def recordTypes : List String :=
  ["A", "AAAA", "CNAME", "MX", "TXT", "NS", "SRV", "CAA"]

/-- Parse a type string of `recordTypes` back into the enumeration
(the `recordType as any` cast on line 2429: each string of
`recordTypes` is a valid `DnsRecordType`). -/
def stringToType (t : String) : RecordType :=
  if t = "A" then .A else if t = "AAAA" then .AAAA else if t = "CNAME" then .CNAME
  else if t = "MX" then .MX else if t = "TXT" then .TXT else if t = "NS" then .NS
  else if t = "SRV" then .SRV else if t = "CAA" then .CAA else .PTR

/-- The descriptor built for one accepted base-domain answer
(lines 2428-2437): content is the raw answer data, ttl is
`answer.TTL || 300`, and — for any record type — a space in the data
makes `priority` the `parseInt` of the first space-separated chunk. -/
def baseAnswerToDesc (recordType : String) (domain : String) (a : RawAnswer) :
    DnsRecordImportType :=
  { type := stringToType recordType
    name := domain
    content := a.data
    ttl := some (jsOrInt a.TTL 300)
    priority :=
      if jsIncludesChar a.data ' ' then
        some (jsParseIntOpt ((jsSplitChar a.data ' ').head?))
      else none
    proxied := some false }

/-- The base-domain phase of `detectDnsRecords` (lines 2418-2447): one
probe per type in `recordTypes`; a transport failure, a non-zero
`Status` or an absent `Answer` contributes nothing; an answer is kept
iff its numeric type matches `getDnsTypeNumber` of the queried type. -/
def detectBase (resolve : Resolver) (domain : String) : List DnsRecordImportType :=
  recordTypes.flatMap (fun recordType =>
    match resolve domain recordType with
    | .error _ => []
    | .ok data =>
      if data.Status = 0 then
        match data.Answer with
        | none => []
        | some answers =>
          answers.filterMap (fun a =>
            if a.type = getDnsTypeNumber recordType then
              some (baseAnswerToDesc recordType domain a)
            else none)
      else [])

/-- The fixed candidate subdomain list (`commonSubdomains`,
lines 2450-2458). -/
def commonSubdomains : List String :=
  ["www", "mail", "ftp", "blog", "shop", "api", "admin"]

/-- The subdomain phase of `detectDnsRecords` (lines 2459-2484): each
candidate prefixed to the domain is probed for type A only; answers of
numeric type 1 become A descriptors with `proxied = false` and no
priority. -/
def detectSub (resolve : Resolver) (domain : String) : List DnsRecordImportType :=
  commonSubdomains.flatMap (fun subdomain =>
    let subdomainName := subdomain ++ "." ++ domain
    match resolve subdomainName "A" with
    | .error _ => []
    | .ok data =>
      if data.Status = 0 then
        match data.Answer with
        | none => []
        | some answers =>
          answers.filterMap (fun a =>
            if a.type = 1 then
              some { type := .A
                     name := subdomainName
                     content := a.data
                     ttl := some (jsOrInt a.TTL 300)
                     proxied := some false : DnsRecordImportType }
            else none)
      else [])

/-- `detectDnsRecords` (lines 2402-2495): base phase then subdomain
phase.  (The outer `try`/`catch` rethrows only exceptions not already
swallowed per probe; in this pure embedding the body cannot throw, so
detection failures enter the development as the `.error` case of the
`Except` fed to `replicateDnsRecords`.) -/
def detectDnsRecords (resolve : Resolver) (domain : String) :
    List DnsRecordImportType :=
  detectBase resolve domain ++ detectSub resolve domain

/-! ## Provider client (`CloudflareApi`, happy-path REST semantics)

The REST boundary is modelled by a provider store plus an oracle for
the create-record endpoint.  The `api` helper's URL construction
(part_000 lines 1926-1944) routes every `dns_records` request through
`cloudflareConfig.zoneId` — never through a caller-supplied zone id —
which is the fact several theorems below turn on. -/

/-- The provider-side store observed through the REST API: the zone
list and, per zone id, that zone's record list.  Envelope/transport
failures of the read endpoints are not needed by any claim and are not
modelled. -/
structure ProviderState where
  zones : List Zone
  records : String → List DnsRecord

/-- The create-record endpoint as an oracle: `CloudflareApi.createDnsRecord`
(lines 2028-2044) either returns the provider-created record or throws
(HTTP failure, `success:false`, null result). -/
def CreateOracle := CreateDnsRecord → Except String DnsRecord

/-- `CloudflareApi.listDnsRecords` (lines 1978-2007): `GET dns_records`
through the `api` helper, which requires the configured token and
**always uses the configured zone id** in the URL. -/
def listDnsRecords (cfg : CloudflareConfig) (st : ProviderState) :
    Except String (List DnsRecord) :=
  if cfg.apiToken = "" then .error "Cloudflare API Token not configured"
  else if cfg.zoneId = "" then .error "Cloudflare Zone ID not configured"
  else .ok (st.records cfg.zoneId)

/-- `CloudflareApi.getZone` (lines 2160-2197): `zoneId || config.zoneId`,
failing when both are empty or when the zone is not in the store. -/
def getZone (cfg : CloudflareConfig) (st : ProviderState) (zoneId : Option String) :
    Except String Zone :=
  let targetZoneId := jsOrStr zoneId cfg.zoneId
  if targetZoneId = "" then .error "Zone ID not provided and not configured"
  else if cfg.apiToken = "" then .error "Cloudflare API Token not configured"
  else
    match st.zones.find? (fun z => z.id = targetZoneId) with
    | none => .error "Zone not found"
    | some z => .ok z

/-- `DnsRecordImport.parse` (zod, types.ts lines 203-210) on one
descriptor: the only runtime rejection possible for a value of our
typed `DnsRecordImportType` is a `NaN` priority (zod's `z.number()`
reports `NaN` as an invalid type). -/
def dnsRecordImportParse (r : DnsRecordImportType) :
    Except String DnsRecordImportType :=
  if r.priority = some .nan then .error "Expected number, received nan"
  else .ok r

/-- The create-record request body built for one descriptor inside
`importDnsRecords` (lines 2296-2303): `ttl: record.ttl || 1`, other
fields copied. -/
def toCreateData (r : DnsRecordImportType) : CreateDnsRecord :=
  { type := r.type
    name := r.name
    content := r.content
    ttl := jsOrInt r.ttl 1
    priority := r.priority
    proxied := r.proxied }

/-- Validate a whole descriptor list (the eager
`records.map((record) => DnsRecordImport.parse(record))` on
lines 2289-2291: the first invalid record throws out of
`importDnsRecords`). -/
def parseAllImports : List DnsRecordImportType →
    Except String (List DnsRecordImportType)
  | [] => .ok []
  | r :: rs => do
    let r' ← dnsRecordImportParse r
    let rs' ← parseAllImports rs
    .ok (r' :: rs')

/-- The per-record create loop of `importDnsRecords`
(lines 2294-2315): each attempt is logged; a failure is only
`console.warn`-ed — nothing is recorded in any error list — and the
loop continues.  Returns (created records, attempted request bodies). -/
def importLoop (create : CreateOracle) :
    List DnsRecordImportType → List DnsRecord × List CreateDnsRecord
  | [] => ([], [])
  | r :: rs =>
    let cd := toCreateData r
    let rest := importLoop create rs
    match create cd with
    | .ok created => (created :: rest.1, cd :: rest.2)
    | .error _ => (rest.1, cd :: rest.2)

/-- `CloudflareApi.importDnsRecords` (lines 2280-2318): zone-id
presence check, eager zod validation of every record, then the
per-record create loop.  The second component of the result is the
log of create-record calls issued. -/
def importDnsRecords (create : CreateOracle) (records : List DnsRecordImportType)
    (zoneId : Option String) (cfg : CloudflareConfig) :
    Except String (List DnsRecord × List CreateDnsRecord) :=
  let targetZoneId := jsOrStr zoneId cfg.zoneId
  if targetZoneId = "" then .error "Zone ID not provided and not configured"
  else do
    let validated ← parseAllImports records
    .ok (importLoop create validated)

/-- `CloudflareApi.replicateDnsRecords` (lines 2497-2544).  The
detection outcome enters as an `Except` (the thrown/returned result of
`detectDnsRecords`); any exception of the body — detection failure or
`importDnsRecords`' own throws — is caught and wrapped, so the function
always returns a `ReplicationResult`.  The second component is the log
of create-record calls issued. -/
def replicateDnsRecords (detectRes : Except String (List DnsRecordImportType))
    (create : CreateOracle) (targetZoneId : Option String)
    (cfg : CloudflareConfig) : ReplicationResult × List CreateDnsRecord :=
  match detectRes with
  | .error e =>
    ({ detected := [], replicated := []
       errors := ["Failed to replicate DNS records: " ++ e] }, [])
  | .ok detectedRecords =>
    if detectedRecords.length = 0 then
      ({ detected := [], replicated := []
         errors := ["No DNS records detected for the domain"] }, [])
    else
      match importDnsRecords create detectedRecords targetZoneId cfg with
      | .error e =>
        ({ detected := [], replicated := []
           errors := ["Failed to replicate DNS records: " ++ e] }, [])
      | .ok (replicatedRecords, log) =>
        ({ detected := detectedRecords, replicated := replicatedRecords
           errors := [] }, log)

/-! ## Migration helpers -/

/-- `CloudflareApi.checkNameserverPropagation` (lines 2339-2364).  The
NS lookup for the domain enters as an oracle; `.error ()` models a
rejected fetch / JSON failure, caught and turned into `false`. -/
def checkNameserverPropagation (resolveNS : String → Except Unit DnsResponse)
    (domain : String) (expectedNameservers : List String) : Bool :=
  match resolveNS domain with
  | .error _ => false
  | .ok data =>
    if data.Status ≠ 0 then false
    else
      match data.Answer with
      | none => false
      | some answer =>
        let currentNameservers :=
          (answer.filter (fun r => r.type = 2)).map (fun r => jsToLower r.data)
        expectedNameservers.all (fun ns =>
          currentNameservers.contains (jsToLower ns))

/-- `CloudflareApi.validateZoneSetup` (lines 2366-2399): fetch the zone
by the given id, then check status, nameserver list, and the record
list returned by `listDnsRecords` (which reads the *configured* zone);
a thrown error is converted into a validation issue on top of the
issues already pushed. -/
def validateZoneSetup (cfg : CloudflareConfig) (st : ProviderState)
    (zoneId : String) : Bool × List String :=
  match getZone cfg st (some zoneId) with
  | .error e => (false, ["Failed to validate zone: " ++ e])
  | .ok zone =>
    let issues₁ :=
      if ¬ (zone.status = .active) then
        ["Zone status is " ++ statusToString zone.status ++ ", should be active"]
      else []
    let issues₂ :=
      if zone.name_servers.length = 0 then ["No nameservers found for zone"] else []
    match listDnsRecords cfg st with
    | .error e => (false, issues₁ ++ issues₂ ++ ["Failed to validate zone: " ++ e])
    | .ok dnsRecords =>
      let issues₃ :=
        if dnsRecords.length = 0 then ["No DNS records found in zone"] else []
      let issues := issues₁ ++ issues₂ ++ issues₃
      (issues.length = 0, issues)

/-- The placeholder returned for the zone on migration failure
(the untyped `{} as Zone` on line 2665). -/
def emptyZone : Zone :=
  { id := "", name := "", status := .pending, name_servers := [] }

/-- `CloudflareApi.migrateDomainWithDetection` (lines 2607-2672).
Zone creation enters as an oracle; its failure is the only fatal path
(the `catch`), every later stage is the non-throwing
`replicateDnsRecords`. -/
def migrateDomainWithDetection (createZone : CreateZone → Except String Zone)
    (detectRes : Except String (List DnsRecordImportType))
    (create : CreateOracle) (cfg : CloudflareConfig)
    (domain : String) (zoneType : Option ZoneType) : MigrationResult :=
  match createZone { name := domain, type := zoneType.getD .full,
                     jump_start := false } with
  | .error e =>
    { zone := emptyZone, detected := [], replicated := []
      errors := ["Migration failed: " ++ e]
      nextSteps := ["Fix the errors and retry the migration"] }
  | .ok zone =>
    let replication :=
      (replicateDnsRecords detectRes create (some zone.id) cfg).1
    let nextSteps :=
      ["1. Update your domain's nameservers at your registrar to: " ++
         joinCommaSpace zone.name_servers,
       "2. Monitor nameserver propagation using check_nameserver_propagation tool",
       "3. Validate setup using validate_zone_setup tool with zone ID: " ++ zone.id]
    let withErrors :=
      if replication.errors.length > 0 then
        nextSteps ++
          ["4. Review and fix any DNS record import errors: " ++
             joinCommaSpace replication.errors]
      else nextSteps
    { zone := zone
      detected := replication.detected
      replicated := replication.replicated
      errors := replication.errors
      nextSteps := withErrors }

/-! ## Zone-file codec (`exportZoneFile` lines 2580-2604,
`parseZoneFile` lines 2691-2749) -/

/-- One exported line, without its trailing newline (loop body of
`exportZoneFile`, lines 2591-2601): name relativized against the zone
name (`@` at the apex, otherwise first occurrence of `"." + zone.name`
removed), `ttl || 300`, a priority prefix only when the priority is
truthy, tab-separated. -/
def exportLineCore (zoneName : String) (record : DnsRecord) : String :=
  let name :=
    if record.name = zoneName then "@"
    else jsReplaceFirst record.name ("." ++ zoneName) ""
  let ttl := jsOrInt (some record.ttl) 300
  let priority :=
    if jsTruthyNum record.priority then
      jsNumRepr (record.priority.getD (.int 0)) ++ " "
    else ""
  name ++ "\t" ++ intRepr ttl ++ "\tIN\t" ++ typeToString record.type ++ "\t" ++
    priority ++ record.content

/-- `CloudflareApi.exportZoneFile` (lines 2580-2604), applied to the
already-fetched record list and zone name: `$ORIGIN`/`$TTL` header then
one line per record. -/
def exportZoneFile (records : List DnsRecord) (zoneName : String) : String :=
  "$ORIGIN " ++ zoneName ++ ".\n$TTL 300\n\n" ++
    records.foldl (fun acc r => acc ++ exportLineCore zoneName r ++ "\n") ""

/-- The type tokens `parseZoneFile` accepts (line 2726). -/
def zoneFileTypes : List String :=
  ["A", "AAAA", "CNAME", "MX", "TXT", "NS", "SRV", "CAA"]

/-- Parse an accepted type token of a zone-file record line. -/
def parseRecordType (t : String) : Option RecordType :=
  if zoneFileTypes.contains t then some (stringToType t) else none

/-- `.replace(/\.$/, "")`: strip one trailing dot. -/
def stripTrailingDot (s : String) : String :=
  if jsEndsWith s "." then ⟨s.data.dropLast⟩ else s

/-- `name.endsWith(".") ? name.slice(0, -1) : name` (line 2732). -/
def stripFinalDot (s : String) : String :=
  if jsEndsWith s "." then ⟨s.data.dropLast⟩ else s

/-- Processing of one line of a zone file (loop body of
`parseZoneFile`, lines 2698-2746) over the mutable state
`(defaultTtl, origin)`.  The only way the loop can throw is the
`$ORIGIN` directive with no argument (`split(...)[1]` is `undefined`
and `.replace` on `undefined` raises a TypeError). -/
def zoneLineStep (defaultTtl : Int) (origin : String) (line : String) :
    Except String ((Int × String) × Option CreateDnsRecord) :=
  let trimmedLine := jsTrim line
  if jsStartsWith trimmedLine ";" ∨ trimmedLine = "" then
    .ok ((defaultTtl, origin), none)
  else if jsStartsWith trimmedLine "$TTL" then
    .ok ((jsOrNum (jsParseIntOpt ((splitWs trimmedLine).get? 1)) 300, origin), none)
  else if jsStartsWith trimmedLine "$ORIGIN" then
    match (splitWs trimmedLine).get? 1 with
    | none => .error "Cannot read properties of undefined"
    | some tok => .ok ((defaultTtl, stripTrailingDot tok), none)
  else
    let parts := splitWs trimmedLine
    if parts.length ≥ 4 then
      let name₀ := if parts.headD "" = "@" then origin else parts.headD ""
      let ttl := jsOrNum (jsParseIntOpt (parts.get? 1)) defaultTtl
      let recordType := parts.getD 3 ""
      let content := joinSpace (parts.drop 4)
      match parseRecordType recordType with
      | none => .ok ((defaultTtl, origin), none)
      | some ty =>
        let record : CreateDnsRecord :=
          { type := ty
            name := stripFinalDot name₀
            content := content
            ttl := ttl
            proxied := some false }
        let record :=
          if ty = .MX ∧ parts.length ≥ 5 then
            { record with priority := some (jsParseIntOpt (parts.get? 4)) }
          else record
        .ok ((defaultTtl, origin), some record)
    else .ok ((defaultTtl, origin), none)

/-- The line loop of `parseZoneFile`, threading `(defaultTtl, origin)`
forward only. -/
def parseZoneLines (defaultTtl : Int) (origin : String) :
    List String → Except String (List CreateDnsRecord)
  | [] => .ok []
  | line :: rest => do
    let step ← zoneLineStep defaultTtl origin line
    let others ← parseZoneLines step.1.1 step.1.2 rest
    .ok (step.2.toList ++ others)

/-- `parseZoneFile` (lines 2691-2749): split on newlines and run the
line loop from `defaultTtl = 300`, `origin = ""`. -/
def parseZoneFile (content : String) : Except String (List CreateDnsRecord) :=
  parseZoneLines 300 "" (jsSplitChar content '\n')

/-! ## Supporting lemmas -/

/-- Splitting the import loop: the created records are exactly the
successful attempts, every descriptor is attempted. -/
theorem importLoop_spec (create : CreateOracle) (rs : List DnsRecordImportType) :
    (importLoop create rs).2 = rs.map toCreateData ∧
    (importLoop create rs).1.length =
      rs.length - rs.countP (fun r => !(create (toCreateData r)).isOk) := by
  induction rs with
  | nil => simp [importLoop]
  | cons r rs ih =>
    have hcount : rs.countP (fun r => !(create (toCreateData r)).isOk) ≤ rs.length :=
      List.countP_le_length _
    obtain ⟨ih1, ih2⟩ := ih
    cases h : create (toCreateData r) with
    | ok created =>
      simp only [Except.isOk, Except.toBool] at hcount
      refine ⟨?_, ?_⟩
      · simp [importLoop, h, ih1]
      · simp [importLoop, h, ih2, List.countP_cons, Except.isOk, Except.toBool]
        omega
    | error e =>
      simp only [Except.isOk, Except.toBool] at hcount
      refine ⟨?_, ?_⟩
      · simp [importLoop, h, ih1]
      · simp [importLoop, h, ih2, List.countP_cons, Except.isOk, Except.toBool]

/-- Zod validation of a descriptor list succeeds, and is the identity,
when no descriptor carries a `NaN` priority. -/
theorem parseAllImports_ok (rs : List DnsRecordImportType)
    (h : ∀ d ∈ rs, d.priority ≠ some .nan) : parseAllImports rs = .ok rs := by
  induction rs with
  | nil => rfl
  | cons r rs ih =>
    have hr : r.priority ≠ some .nan := h r (by simp)
    simp [parseAllImports, dnsRecordImportParse, hr, Bind.bind, Except.bind,
          ih (fun d hd => h d (by simp [hd]))]

/-! ## Claim theorems -/

/-- **C5** — If detection yields zero descriptors, `replicateDnsRecords`
returns `{detected: [], replicated: [], errors: [one explanatory
message]}` without throwing, and its create-record call log is empty
(no create attempt was made). -/
theorem replicate_zero_detected (create : CreateOracle)
    (targetZoneId : Option String) (cfg : CloudflareConfig) :
    replicateDnsRecords (.ok []) create targetZoneId cfg =
      ({ detected := [], replicated := []
         errors := ["No DNS records detected for the domain"] }, []) := rfl

/-- **C10** — `replicateDnsRecords` is a total function into
`ReplicationResult` (it never throws: every thrown exception of its
body is caught on lines 2532-2543); when the detection engine itself
raises an exception, the result is `detected = []`, `replicated = []`
and exactly one error wrapping the cause, with no create-record call
attempted. -/
theorem replicate_detection_exception (e : String) (create : CreateOracle)
    (targetZoneId : Option String) (cfg : CloudflareConfig) :
    replicateDnsRecords (.error e) create targetZoneId cfg =
      ({ detected := [], replicated := []
         errors := ["Failed to replicate DNS records: " ++ e] }, []) := rfl

/-- **C1 (amended)** — With N valid detected descriptors (N > 0, no NaN
priority, a usable zone id) of which M fail at creation:
`detected.length = N`, `replicated.length = N - M`, every descriptor is
attempted in order (the loop continues past failures), but
`errors` is empty — the per-record failures are only logged as console
warnings by `importDnsRecords` (lines 2308-2314), never appended to the
`errors` list the caller returns. -/
theorem replicate_partial_failure (create : CreateOracle)
    (ds : List DnsRecordImportType) (targetZoneId : Option String)
    (cfg : CloudflareConfig)
    (hne : ds ≠ [])
    (hvalid : ∀ d ∈ ds, d.priority ≠ some .nan)
    (hzone : ¬ jsOrStr targetZoneId cfg.zoneId = "") :
    (replicateDnsRecords (.ok ds) create targetZoneId cfg).1.detected = ds ∧
    (replicateDnsRecords (.ok ds) create targetZoneId cfg).1.replicated.length =
      ds.length - ds.countP (fun d => !(create (toCreateData d)).isOk) ∧
    (replicateDnsRecords (.ok ds) create targetZoneId cfg).1.errors = [] ∧
    (replicateDnsRecords (.ok ds) create targetZoneId cfg).2 =
      ds.map toCreateData := by
  have hlen : ¬ ds.length = 0 := by simpa using hne
  have himp : importDnsRecords create ds targetZoneId cfg =
      .ok (importLoop create ds) := by
    simp [importDnsRecords, hzone, parseAllImports_ok ds hvalid,
          Bind.bind, Except.bind]
  have hspec := importLoop_spec create ds
  simp [replicateDnsRecords, hlen, himp, hspec.1, hspec.2]

/-- Concrete descriptor fixture (create succeeds). -/
def fixtureDescA : DnsRecordImportType :=
  { type := .A, name := "a.example.com", content := "1.2.3.4"
    ttl := some 300, proxied := some false }

/-- Concrete descriptor fixture (create fails). -/
def fixtureDescB : DnsRecordImportType :=
  { type := .A, name := "b.example.com", content := "5.6.7.8"
    ttl := some 300, proxied := some false }

/-- The provider-side record returned for `fixtureDescA`. -/
def fixtureManagedA : DnsRecord :=
  { id := "rec1", name := "a.example.com", type := .A
    content := "1.2.3.4", ttl := 300 }

/-- A create oracle that succeeds for `a.example.com` and rejects
everything else. -/
def fixtureCreate : CreateOracle := fun cd =>
  if cd.name = "a.example.com" then .ok fixtureManagedA
  else .error "API Error: record already exists"

/-- A configured client. -/
def fixtureCfg : CloudflareConfig := { apiToken := "token", zoneId := "zone1" }

/-- **C1 (counterexample)** — Replication of two detected descriptors of
which one fails at creation: `detected.length = 2` and
`replicated.length = 1` as the claim states, but `errors.length = 0`,
not `M = 1` — the failure was only console-warned inside
`importDnsRecords`, so the claimed `errors.length = M` is false. -/
theorem replicate_errors_stay_empty_cex :
    (replicateDnsRecords (.ok [fixtureDescA, fixtureDescB])
        fixtureCreate none fixtureCfg).1.detected.length = 2 ∧
    (replicateDnsRecords (.ok [fixtureDescA, fixtureDescB])
        fixtureCreate none fixtureCfg).1.replicated.length = 1 ∧
    (replicateDnsRecords (.ok [fixtureDescA, fixtureDescB])
        fixtureCreate none fixtureCfg).1.errors.length = 0 := by
  decide

/-- Witness for `replicate_partial_failure` at a concrete input. -/
theorem replicate_partial_failure_witness :
    (replicateDnsRecords (.ok [fixtureDescA, fixtureDescB])
        fixtureCreate none fixtureCfg).1.detected = [fixtureDescA, fixtureDescB] ∧
    (replicateDnsRecords (.ok [fixtureDescA, fixtureDescB])
        fixtureCreate none fixtureCfg).1.replicated.length =
      [fixtureDescA, fixtureDescB].length -
        [fixtureDescA, fixtureDescB].countP
          (fun d => !(fixtureCreate (toCreateData d)).isOk) ∧
    (replicateDnsRecords (.ok [fixtureDescA, fixtureDescB])
        fixtureCreate none fixtureCfg).1.errors = [] ∧
    (replicateDnsRecords (.ok [fixtureDescA, fixtureDescB])
        fixtureCreate none fixtureCfg).2 =
      [fixtureDescA, fixtureDescB].map toCreateData :=
  replicate_partial_failure fixtureCreate [fixtureDescA, fixtureDescB]
    none fixtureCfg (by decide) (by decide) (by decide)

/-- **C4** — In the base-domain phase of detection, a descriptor's
priority is governed only by whether the answer data (the descriptor's
content) contains a space — for every record type queried, not only MX:
with a space, priority is the `parseInt` of the first space-separated
chunk; without one there is no priority. -/
theorem detectBase_priority_space_heuristic (resolve : Resolver)
    (domain : String) (d : DnsRecordImportType)
    (hd : d ∈ detectBase resolve domain) :
    d.priority =
      if jsIncludesChar d.content ' ' then
        some (jsParseIntOpt ((jsSplitChar d.content ' ').head?))
      else none := by
  simp only [detectBase, List.mem_flatMap] at hd
  obtain ⟨rt, _, hmem⟩ := hd
  split at hmem
  · simp at hmem
  · split at hmem
    · split at hmem
      · simp at hmem
      · simp only [List.mem_filterMap] at hmem
        obtain ⟨a, _, heq⟩ := hmem
        split at heq
        · obtain rfl := Option.some_injective _ heq
          rfl
        · simp at heq
    · simp at hmem

/-- A resolver fixture: a TXT answer whose data contains a space, an MX
answer, and one A answer for the `www` subdomain. -/
def fixtureResolver : Resolver := fun name ty =>
  if name = "example.com" ∧ ty = "TXT" then
    .ok { Status := 0, Answer := some [{ type := 16, data := "10 hello" }] }
  else if name = "example.com" ∧ ty = "MX" then
    .ok { Status := 0, Answer := some [{ type := 15, data := "5 mail.example.com" }] }
  else if name = "www.example.com" ∧ ty = "A" then
    .ok { Status := 0, Answer := some [{ type := 1, data := "9.9.9.9", TTL := some 60 }] }
  else .error ()

/-- Witness for `detectBase_priority_space_heuristic`: the crafted
non-MX (TXT) answer `"10 hello"` really gets `priority = 10`. -/
theorem detectBase_priority_space_heuristic_witness :
    ({ type := .TXT, name := "example.com", content := "10 hello"
       ttl := some 300, priority := some (.int 10), proxied := some false } :
        DnsRecordImportType) ∈ detectBase fixtureResolver "example.com" ∧
    ({ type := .TXT, name := "example.com", content := "10 hello"
       ttl := some 300, priority := some (.int 10), proxied := some false } :
        DnsRecordImportType).priority = some (.int 10) :=
  ⟨by decide,
   (detectBase_priority_space_heuristic fixtureResolver "example.com" _
      (by decide)).trans (by decide)⟩

/-- **C8** — Every descriptor of the subdomain phase (the fixed list
www, mail, ftp, blog, shop, api, admin probed only for type A) has
`type = A`, `proxied = false` and no priority; in particular no CNAME
descriptor can come out of it. -/
theorem detectSub_only_A (resolve : Resolver) (domain : String)
    (d : DnsRecordImportType) (hd : d ∈ detectSub resolve domain) :
    d.type = .A ∧ d.proxied = some false ∧ d.priority = none ∧
    d.type ≠ .CNAME := by
  simp only [detectSub, List.mem_flatMap] at hd
  obtain ⟨sub, _, hmem⟩ := hd
  split at hmem
  · simp at hmem
  · split at hmem
    · split at hmem
      · simp at hmem
      · simp only [List.mem_filterMap] at hmem
        obtain ⟨a, _, heq⟩ := hmem
        split at heq
        · obtain rfl := Option.some_injective _ heq
          exact ⟨rfl, rfl, rfl, fun h => RecordType.noConfusion h⟩
        · simp at heq
    · simp at hmem

/-- Witness for `detectSub_only_A` at the fixture resolver's `www`
answer. -/
theorem detectSub_only_A_witness :
    ({ type := .A, name := "www.example.com", content := "9.9.9.9"
       ttl := some 60, proxied := some false } : DnsRecordImportType) ∈
      detectSub fixtureResolver "example.com" ∧
    ({ type := .A, name := "www.example.com", content := "9.9.9.9"
       ttl := some 60, proxied := some false } : DnsRecordImportType).type = .A :=
  ⟨by decide,
   (detectSub_only_A fixtureResolver "example.com" _ (by decide)).1⟩

/-- **C7** — `checkNameserverPropagation` returns true iff the NS
resolution succeeded (transport ok, `Status = 0`, an `Answer` present)
and every expected nameserver occurs, case-insensitively, among the
type-2 answers (resolved set ⊇ expected list); every failure path
yields `false` (the function is total, never throwing). -/
theorem checkNameserverPropagation_iff
    (resolveNS : String → Except Unit DnsResponse) (domain : String)
    (expected : List String) :
    checkNameserverPropagation resolveNS domain expected = true ↔
      ∃ data answers, resolveNS domain = .ok data ∧ data.Status = 0 ∧
        data.Answer = some answers ∧
        ∀ ns ∈ expected,
          jsToLower ns ∈
            (answers.filter (fun r => r.type = 2)).map (fun r => jsToLower r.data) := by
  unfold checkNameserverPropagation
  cases h : resolveNS domain with
  | error e => simp [h]
  | ok data =>
    by_cases hstat : data.Status = 0
    · cases hans : data.Answer with
      | none => simp [h, hans, hstat]
      | some answers =>
        simp only [h, hans, hstat, ne_eq, not_true_eq_false, if_false,
          Except.ok.injEq, Option.some.injEq, exists_eq_left',
          exists_and_left, exists_eq_left, true_and, List.all_eq_true]
        constructor
        · intro hall ns hns
          have := hall ns hns
          rwa [List.contains, List.elem_iff] at this
        · intro hall ns hns
          rw [List.contains, List.elem_iff]
          exact hall ns hns
    · simp [h, hstat]

/-- **C6** — In `migrateDomainWithDetection`, zone-creation failure is
fatal and non-throwing: the result is the empty placeholder zone with
empty `detected`/`replicated`, the error recorded, and the fixed
retry instruction.  When zone creation succeeds, the result is composed
from the (total, partial-failure tracking) `replicateDnsRecords`
outcome — no later stage can abort the operation. -/
theorem migrate_zone_creation_fatal (createZone : CreateZone → Except String Zone)
    (detectRes : Except String (List DnsRecordImportType)) (create : CreateOracle)
    (cfg : CloudflareConfig) (domain : String) (zoneType : Option ZoneType) :
    (∀ e, createZone { name := domain, type := zoneType.getD .full,
                       jump_start := false } = .error e →
       migrateDomainWithDetection createZone detectRes create cfg domain zoneType =
         { zone := emptyZone, detected := [], replicated := []
           errors := ["Migration failed: " ++ e]
           nextSteps := ["Fix the errors and retry the migration"] }) ∧
    (∀ z, createZone { name := domain, type := zoneType.getD .full,
                       jump_start := false } = .ok z →
       (migrateDomainWithDetection createZone detectRes create cfg domain
           zoneType).zone = z ∧
       (migrateDomainWithDetection createZone detectRes create cfg domain
           zoneType).detected =
         (replicateDnsRecords detectRes create (some z.id) cfg).1.detected ∧
       (migrateDomainWithDetection createZone detectRes create cfg domain
           zoneType).replicated =
         (replicateDnsRecords detectRes create (some z.id) cfg).1.replicated ∧
       (migrateDomainWithDetection createZone detectRes create cfg domain
           zoneType).errors =
         (replicateDnsRecords detectRes create (some z.id) cfg).1.errors) := by
  constructor
  · intro e he
    simp [migrateDomainWithDetection, he]
  · intro z hz
    simp [migrateDomainWithDetection, hz]

/-- A zone-creation oracle that always fails. -/
def fixtureCreateZoneFail : CreateZone → Except String Zone :=
  fun _ => .error "API Error: zone already exists"

/-- Witness for `migrate_zone_creation_fatal` at a failing creation. -/
theorem migrate_zone_creation_fatal_witness :
    migrateDomainWithDetection fixtureCreateZoneFail (.ok []) fixtureCreate
        fixtureCfg "example.com" none =
      { zone := emptyZone, detected := [], replicated := []
        errors := ["Migration failed: API Error: zone already exists"]
        nextSteps := ["Fix the errors and retry the migration"] } :=
  (migrate_zone_creation_fatal fixtureCreateZoneFail (.ok []) fixtureCreate
      fixtureCfg "example.com" none).1 "API Error: zone already exists" rfl

/-- Zone fixture: the configured zone (has one record). -/
def fixtureZone1 : Zone :=
  { id := "zone1", name := "one.example", status := .active
    name_servers := ["ns1.cloudflare.com"] }

/-- Zone fixture: an active, fully set up zone whose own record list is
empty. -/
def fixtureZone2 : Zone :=
  { id := "zone2", name := "two.example", status := .active
    name_servers := ["ns1.cloudflare.com"] }

/-- Zone fixture: a pending zone with no records. -/
def fixtureZone3 : Zone :=
  { id := "zone3", name := "three.example", status := .pending
    name_servers := ["ns1.cloudflare.com"] }

/-- Provider store fixture: three zones; only the configured zone
`zone1` holds a record. -/
def fixtureState : ProviderState :=
  { zones := [fixtureZone1, fixtureZone2, fixtureZone3]
    records := fun z => if z = "zone1" then [fixtureManagedA] else [] }

/-- **C3 (counterexample)** — Validating `zone2` (active, nameservers
present, zero records in `zone2`) with `zone1` configured: the claim
requires an issue for the empty record list *of that zone*, but the
code lists the records of the configured zone (`listDnsRecords` takes
no zone id, the `api` helper always uses `cloudflareConfig.zoneId`),
so the result is `valid = true` with no issues. -/
theorem validateZoneSetup_wrong_zone_cex :
    fixtureState.records "zone2" = [] ∧
    validateZoneSetup fixtureCfg fixtureState "zone2" = (true, []) := by
  decide

/-- **C3 (amended)** — `validateZoneSetup zoneId` checks the status and
nameserver list of the zone `zoneId`, but the *configured default
zone's* record list (not that zone's): each violated condition
contributes exactly one issue, and `valid` holds iff the issue list is
empty. -/
theorem validateZoneSetup_checks (cfg : CloudflareConfig) (st : ProviderState)
    (zoneId : String) (zone : Zone) (recs : List DnsRecord)
    (hz : getZone cfg st (some zoneId) = .ok zone)
    (hr : listDnsRecords cfg st = .ok recs) :
    ((validateZoneSetup cfg st zoneId).1 = true ↔
       (zone.status = .active ∧ zone.name_servers ≠ [] ∧ recs ≠ [])) ∧
    (validateZoneSetup cfg st zoneId).2.length =
      ((if zone.status = .active then 0 else 1) +
       (if zone.name_servers = [] then 1 else 0) +
       (if recs = [] then 1 else 0)) ∧
    ((validateZoneSetup cfg st zoneId).1 = true ↔
       (validateZoneSetup cfg st zoneId).2 = []) := by
  unfold validateZoneSetup
  rw [hz, hr]
  by_cases h1 : zone.status = .active <;>
    by_cases h2 : zone.name_servers = [] <;>
      by_cases h3 : recs = [] <;>
        simp [h1, h2, h3, List.length_eq_zero]

/-- A client configured onto the empty pending zone. -/
def fixtureCfg3 : CloudflareConfig := { apiToken := "token", zoneId := "zone3" }

/-- Witness for `validateZoneSetup_checks`: a pending zone with zero
records (and a nonempty nameserver list) yields `valid = false` with
exactly two issues — the concrete scenario of the claim. -/
theorem validateZoneSetup_checks_witness :
    (validateZoneSetup fixtureCfg3 fixtureState "zone3").2.length = 2 ∧
    (validateZoneSetup fixtureCfg3 fixtureState "zone3").1 = false :=
  ⟨((validateZoneSetup_checks fixtureCfg3 fixtureState "zone3" fixtureZone3 []
       rfl rfl).2.1).trans (by decide),
   by decide⟩

/-- A line that is not an `$ORIGIN` directive can neither throw nor
change the origin component of the parser state. -/
theorem zoneLineStep_noOrigin (dttl : Int) (origin : String) (line : String)
    (h : jsStartsWith (jsTrim line) "$ORIGIN" = false) :
    ∃ dttl' rec?, zoneLineStep dttl origin line = .ok ((dttl', origin), rec?) := by
  unfold zoneLineStep
  dsimp only
  by_cases h1 : jsStartsWith (jsTrim line) ";" ∨ jsTrim line = ""
  · rw [if_pos h1]; exact ⟨_, _, rfl⟩
  · rw [if_neg h1]
    by_cases h2 : jsStartsWith (jsTrim line) "$TTL"
    · rw [if_pos h2]; exact ⟨_, _, rfl⟩
    · rw [if_neg h2, if_neg (by simp [h])]
      by_cases h4 : (splitWs (jsTrim line)).length ≥ 4
      · rw [if_pos h4]
        cases hty : parseRecordType ((splitWs (jsTrim line)).getD 3 "") with
        | none => exact ⟨_, _, rfl⟩
        | some ty => exact ⟨_, _, rfl⟩
      · rw [if_neg h4]; exact ⟨_, _, rfl⟩

/-- Running the line loop over an `$ORIGIN`-free prefix: no error, the
origin is unchanged, a (possibly empty) record prefix is produced, and
the continuation is independent of anything later. -/
theorem parseZoneLines_noOrigin_prefix (pre : List String)
    (dttl : Int) (origin : String)
    (hpre : ∀ p ∈ pre, jsStartsWith (jsTrim p) "$ORIGIN" = false) :
    ∃ dttl' recs, ∀ rest,
      parseZoneLines dttl origin (pre ++ rest) =
        (parseZoneLines dttl' origin rest).map (fun rs => recs ++ rs) := by
  induction pre generalizing dttl with
  | nil =>
    refine ⟨dttl, [], fun rest => ?_⟩
    cases h : parseZoneLines dttl origin rest <;> simp [Except.map, h]
  | cons p pre ih =>
    obtain ⟨d1, rec?, hstep⟩ :=
      zoneLineStep_noOrigin dttl origin p (hpre p (by simp))
    obtain ⟨d2, recs, hrec⟩ := ih d1 (fun q hq => hpre q (by simp [hq]))
    refine ⟨d2, rec?.toList ++ recs, fun rest => ?_⟩
    have h1 : parseZoneLines dttl origin ((p :: pre) ++ rest) =
        (parseZoneLines d1 origin (pre ++ rest)).map
          (fun rs => rec?.toList ++ rs) := by
      simp only [List.cons_append, parseZoneLines, hstep, Bind.bind, Except.bind]
      cases h : parseZoneLines d1 origin (pre ++ rest) <;> simp [Except.map, h]
    rw [h1, hrec rest]
    cases h : parseZoneLines d2 origin rest <;>
      simp [Except.map, h, List.append_assoc]

/-- Evaluation of the line step on a record line whose first field is
`@` (trimmed line starts with `@`, at least four fields, accepted
type): it emits a record whose name is the current origin (after the
final-dot strip), leaving the state unchanged. -/
theorem zoneLineStep_record_at (dttl : Int) (origin : String) (l : String)
    (ty : RecordType) (tl : List Char)
    (hhead : (jsTrim l).data = '@' :: tl)
    (hat : (splitWs (jsTrim l)).headD "" = "@")
    (hlen : (splitWs (jsTrim l)).length ≥ 4)
    (hty : parseRecordType ((splitWs (jsTrim l)).getD 3 "") = some ty) :
    ∃ r, zoneLineStep dttl origin l = .ok ((dttl, origin), some r) ∧
      r.name = stripFinalDot origin := by
  have hne : ¬ jsTrim l = "" := by
    intro he
    have h0 : ("" : String).data = [] := rfl
    rw [he, h0] at hhead
    exact List.noConfusion hhead
  have hg1 : jsStartsWith (jsTrim l) ";" = false := by
    have hd : (";" : String).data = [';'] := rfl
    unfold jsStartsWith
    rw [hd, hhead]
    simp [List.isPrefixOf]
  have hg3 : jsStartsWith (jsTrim l) "$TTL" = false := by
    have hd : ("$TTL" : String).data = ['$', 'T', 'T', 'L'] := rfl
    unfold jsStartsWith
    rw [hd, hhead]
    simp [List.isPrefixOf]
  have hg4 : jsStartsWith (jsTrim l) "$ORIGIN" = false := by
    have hd : ("$ORIGIN" : String).data = ['$', 'O', 'R', 'I', 'G', 'I', 'N'] := rfl
    unfold jsStartsWith
    rw [hd, hhead]
    simp [List.isPrefixOf]
  unfold zoneLineStep
  dsimp only
  rw [if_neg (by simp [hg1, hne]), if_neg (by simp [hg3]),
      if_neg (by simp [hg4]), if_pos hlen, hty]
  refine ⟨_, rfl, ?_⟩
  split <;> simp [hat]

/-- **C9** — In zone-file import, a record line whose name field is `@`
and that comes before any `$ORIGIN` directive resolves its name to the
empty string: the lines before it leave the initial empty origin
untouched, and nothing after it (including later `$ORIGIN` directives)
can influence the record it produces — the parse is forward-only with
no lookahead. -/
theorem parseZoneFile_at_before_origin (content : String)
    (pre post : List String) (l : String) (ty : RecordType) (tl : List Char)
    (hsplit : jsSplitChar content '\n' = pre ++ l :: post)
    (hpre : ∀ p ∈ pre, jsStartsWith (jsTrim p) "$ORIGIN" = false)
    (hhead : (jsTrim l).data = '@' :: tl)
    (hat : (splitWs (jsTrim l)).headD "" = "@")
    (hlen : (splitWs (jsTrim l)).length ≥ 4)
    (hty : parseRecordType ((splitWs (jsTrim l)).getD 3 "") = some ty) :
    ∃ (dttl : Int) (recsPre : List CreateDnsRecord) (r : CreateDnsRecord),
      r.name = "" ∧
      parseZoneFile content =
        (parseZoneLines dttl "" post).map (fun rs => recsPre ++ r :: rs) := by
  obtain ⟨d1, recs, hrec⟩ := parseZoneLines_noOrigin_prefix pre 300 "" hpre
  obtain ⟨r, hstep, hname⟩ := zoneLineStep_record_at d1 "" l ty tl hhead hat hlen hty
  refine ⟨d1, recs, r, ?_, ?_⟩
  · rw [hname]; decide
  · unfold parseZoneFile
    rw [hsplit, hrec (l :: post)]
    have h2 : parseZoneLines d1 "" (l :: post) =
        (parseZoneLines d1 "" post).map (fun rs => r :: rs) := by
      simp only [parseZoneLines, hstep, Bind.bind, Except.bind]
      cases h : parseZoneLines d1 "" post <;> simp [Except.map, h]
    rw [h2]
    cases h : parseZoneLines d1 "" post <;> simp [Except.map, h]

/-- Witness for `parseZoneFile_at_before_origin`: one ordinary record
line before the `@` line, an `$ORIGIN` directive after it. -/
theorem parseZoneFile_at_before_origin_witness :
    ∃ (dttl : Int) (recsPre : List CreateDnsRecord) (r : CreateDnsRecord),
      r.name = "" ∧
      parseZoneFile
          "www 60 IN A 1.1.1.1\n@ 60 IN A 2.2.2.2\n$ORIGIN example.com." =
        (parseZoneLines dttl "" ["$ORIGIN example.com."]).map
          (fun rs => recsPre ++ r :: rs) :=
  parseZoneFile_at_before_origin
    "www 60 IN A 1.1.1.1\n@ 60 IN A 2.2.2.2\n$ORIGIN example.com."
    ["www 60 IN A 1.1.1.1"] ["$ORIGIN example.com."] "@ 60 IN A 2.2.2.2"
    .A " 60 IN A 2.2.2.2".data
    (by decide) (by decide) (by decide) (by decide) (by decide) (by decide)

/-- Decidable equality of `Except` results (used to settle concrete
outcomes by `decide`). -/
instance {e a : Type} [DecidableEq e] [DecidableEq a] : DecidableEq (Except e a) :=
  fun x y =>
    match x, y with
    | .ok u, .ok v =>
      if h : u = v then .isTrue (by rw [h]) else .isFalse (by simp [h])
    | .error u, .error v =>
      if h : u = v then .isTrue (by rw [h]) else .isFalse (by simp [h])
    | .ok _, .error _ => .isFalse (by simp)
    | .error _, .ok _ => .isFalse (by simp)

/-- Record fixture: a subdomain A record. -/
def cexRecordWww : DnsRecord :=
  { id := "r1", name := "www.example.com", type := .A
    content := "5.6.7.8", ttl := 120 }

/-- Record fixture: an apex MX record with a priority. -/
def cexRecordMx : DnsRecord :=
  { id := "r2", name := "example.com", type := .MX
    content := "mail.example.com", ttl := 300, priority := some (.int 10) }

/-- **C2 (counterexample)** — The zone-file round trip does not
reproduce the `{type, name, content}` triples: a subdomain record comes
back with the relative name (`www`, not `www.example.com`, since
`parseZoneFile` never re-qualifies non-`@` names against `$ORIGIN`),
and a record exported with a priority comes back with the priority
token prepended to its content (`"10 mail.example.com"`), because the
parser's content is `parts.slice(4).join(" ")` which includes the
priority field. -/
theorem zoneFile_roundtrip_cex :
    (parseZoneFile (exportZoneFile [cexRecordWww, cexRecordMx] "example.com")).map
        (fun rs => rs.map (fun r => (r.type, r.name, r.content))) =
      .ok [(.A, "www", "5.6.7.8"),
           (.MX, "example.com", "10 mail.example.com")] ∧
    ("www" : String) ≠ "www.example.com" ∧
    ("10 mail.example.com" : String) ≠ "mail.example.com" := by
  decide

/-- The decimal digit characters, enumerated. -/
theorem digit_char_cases (c : Char) (h : isDigitChar c = true) :
    c = '0' ∨ c = '1' ∨ c = '2' ∨ c = '3' ∨ c = '4' ∨ c = '5' ∨ c = '6' ∨
    c = '7' ∨ c = '8' ∨ c = '9' := by
  unfold isDigitChar digitVal at h
  split_ifs at h <;> simp_all

/-- Digits are not whitespace. -/
theorem digit_not_ws (c : Char) (h : isDigitChar c = true) : wsChar c = false := by
  rcases digit_char_cases c h with rfl|rfl|rfl|rfl|rfl|rfl|rfl|rfl|rfl|rfl <;> decide

/-- Digits are not sign characters. -/
theorem digit_not_sign (c : Char) (h : isDigitChar c = true) : c ≠ '-' ∧ c ≠ '+' := by
  rcases digit_char_cases c h with rfl|rfl|rfl|rfl|rfl|rfl|rfl|rfl|rfl|rfl <;> decide

/-- Digits are not the hex markers. -/
theorem digit_not_hexmark (c : Char) (h : isDigitChar c = true) :
    c ≠ 'x' ∧ c ≠ 'X' := by
  rcases digit_char_cases c h with rfl|rfl|rfl|rfl|rfl|rfl|rfl|rfl|rfl|rfl <;> decide

/-- `digitVal` inverts `digitChar` below ten. -/
theorem digitVal_digitChar (n : Nat) (h : n < 10) :
    digitVal (digitChar n) = some n := by
  interval_cases n <;> decide

/-- `digitChar` produces digits below ten. -/
theorem isDigitChar_digitChar (n : Nat) (h : n < 10) :
    isDigitChar (digitChar n) = true := by
  interval_cases n <;> decide

/-- The fuelled digit expansion is correct whenever the fuel exceeds
the number: nonempty, all digits, and `digitsVal` recovers the
number. -/
theorem natDigitsGo_spec (fuel : Nat) : ∀ n, n < fuel →
    natDigitsGo fuel n ≠ [] ∧ (∀ c ∈ natDigitsGo fuel n, isDigitChar c = true) ∧
    digitsVal digitVal (natDigitsGo fuel n) = n := by
  induction fuel with
  | zero => omega
  | succ fuel ih =>
    intro n hn
    by_cases h10 : n < 10
    · refine ⟨by simp [natDigitsGo, h10], ?_, ?_⟩
      · intro c hc
        simp [natDigitsGo, h10] at hc
        rw [hc]
        exact isDigitChar_digitChar n h10
      · simp [natDigitsGo, h10, digitsVal, digitVal_digitChar n h10]
    · have hlt : n / 10 < n := Nat.div_lt_self (by omega) (by omega)
      have hdiv : n / 10 < fuel := by omega
      obtain ⟨hne, hdig, hval⟩ := ih (n / 10) hdiv
      have hmod : n % 10 < 10 := Nat.mod_lt n (by omega)
      refine ⟨by simp [natDigitsGo, h10], ?_, ?_⟩
      · intro c hc
        simp [natDigitsGo, h10] at hc
        rcases hc with hc | hc
        · exact hdig c hc
        · rw [hc]; exact isDigitChar_digitChar _ hmod
      · have hsplit : digitsVal digitVal
            (natDigitsGo fuel (n / 10) ++ [digitChar (n % 10)]) =
            digitsVal digitVal (natDigitsGo fuel (n / 10)) * 10 +
              (digitVal (digitChar (n % 10))).getD 0 := by
          unfold digitsVal
          rw [List.foldl_append]
          rfl
        simp only [natDigitsGo, h10, if_false]
        rw [hsplit, hval, digitVal_digitChar _ hmod]
        simp
        omega

/-- `natDigits` of any natural number: nonempty, all digits, value
recovered. -/
theorem natDigits_spec (n : Nat) :
    natDigits n ≠ [] ∧ (∀ c ∈ natDigits n, isDigitChar c = true) ∧
    digitsVal digitVal (natDigits n) = n :=
  natDigitsGo_spec (n + 1) n (by omega)

/-- `parseInt` of a nonempty all-digit string is its decimal value. -/
theorem jsParseIntList_digits (ds : List Char) (hne : ds ≠ [])
    (hdig : ∀ c ∈ ds, isDigitChar c = true) :
    jsParseIntList ds = .int (digitsVal digitVal ds) := by
  obtain ⟨d, ds', rfl⟩ := List.exists_cons_of_ne_nil hne
  have hd : isDigitChar d = true := hdig d (by simp)
  have hdrop : (d :: ds').dropWhile wsChar = d :: ds' := by
    simp [List.dropWhile_cons, digit_not_ws d hd]
  have hsign : ¬((d :: ds').head? = some '-' ∨ (d :: ds').head? = some '+') := by
    simp [digit_not_sign d hd]
  have hhex : ¬((d :: ds').head? = some '0' ∧
      ((d :: ds').get? 1 = some 'x' ∨ (d :: ds').get? 1 = some 'X')) := by
    rintro ⟨-, hx⟩
    cases ds' with
    | nil => simp at hx
    | cons e es =>
      have he : isDigitChar e = true := hdig e (by simp)
      rcases hx with hx | hx <;> simp at hx <;>
        [exact (digit_not_hexmark e he).1 hx; exact (digit_not_hexmark e he).2 hx]
  have htake : (d :: ds').takeWhile isDigitChar = d :: ds' :=
    List.takeWhile_eq_self_iff.mpr hdig
  unfold jsParseIntList
  dsimp only
  rw [hdrop, if_neg hsign]
  rw [if_neg (by simpa using hhex)]
  rw [htake, if_neg (by simp)]
  have : ((d :: ds').head? = some ('-' : Char)) = False := by
    simp [(digit_not_sign d hd).1]
  simp [this, hdrop]
  intro h
  exact absurd h (digit_not_sign d hd).1

/-- Leading whitespace is skipped by the word splitter. -/
theorem wordsList_ws_cons (c : Char) (h : wsChar c = true) (l : List Char) :
    wordsList (c :: l) = wordsList l := by
  rw [wordsList.eq_def]
  simp [h]

/-- A nonempty whitespace-free chunk followed by a whitespace character
is cut off as one word. -/
theorem wordsList_word_append (w : List Char) (hw : w ≠ [])
    (hchars : ∀ c ∈ w, wsChar c = false) (d : Char) (hd : wsChar d = true)
    (rest : List Char) :
    wordsList (w ++ d :: rest) = w :: wordsList rest := by
  induction w with
  | nil => simp at hw
  | cons a w ih =>
    have ha : wsChar a = false := hchars a (by simp)
    cases w with
    | nil =>
      rw [List.cons_append, List.nil_append, wordsList.eq_def]
      simp [ha, hd, wordsList_ws_cons]
    | cons b w' =>
      have hb : wsChar b = false := hchars b (by simp)
      have ihw := ih (by simp) (fun c hc => hchars c (by simp [hc]))
      simp only [List.cons_append] at ihw ⊢
      rw [wordsList.eq_def]
      simp [ha, hb, ihw]

/-- A nonempty whitespace-free list is a single word. -/
theorem wordsList_word (w : List Char) (hw : w ≠ [])
    (hchars : ∀ c ∈ w, wsChar c = false) :
    wordsList w = [w] := by
  induction w with
  | nil => simp at hw
  | cons a w ih =>
    have ha := hchars a (by simp)
    cases w with
    | nil => rw [wordsList.eq_def]; simp [ha]
    | cons b w' =>
      have hb := hchars b (by simp)
      have ihw := ih (by simp) (fun c hc => hchars c (by simp [hc]))
      rw [wordsList.eq_def]
      simp [ha, hb, ihw]

/-- Splitting a single-space join of good tokens recovers the
tokens. -/
theorem wordsList_intercalate (toks : List (List Char))
    (h : ∀ t ∈ toks, t ≠ [] ∧ ∀ c ∈ t, wsChar c = false) :
    wordsList (intercalateList [' '] toks) = toks := by
  induction toks with
  | nil => rfl
  | cons t ts ih =>
    cases ts with
    | nil =>
      simpa [intercalateList] using
        wordsList_word t (h t (by simp)).1 (h t (by simp)).2
    | cons t2 ts' =>
      have ht := h t (by simp)
      have hstep : intercalateList [' '] (t :: t2 :: ts') =
          t ++ ' ' :: intercalateList [' '] (t2 :: ts') := by
        simp [intercalateList]
      rw [hstep, wordsList_word_append t ht.1 ht.2 ' ' (by decide),
        ih (fun u hu => h u (by simp [hu]))]

/-- Every word produced by the splitter is nonempty and
whitespace-free. -/
theorem wordsList_good (l : List Char) :
    ∀ w ∈ wordsList l, w ≠ [] ∧ ∀ c ∈ w, wsChar c = false := by
  induction l with
  | nil => simp [wordsList]
  | cons a l ih =>
    intro w hw
    by_cases ha : wsChar a = true
    · rw [wordsList_ws_cons a ha] at hw
      exact ih w hw
    · have ha' : wsChar a = false := by simpa using ha
      rw [wordsList.eq_def] at hw
      cases l with
      | nil =>
        simp [ha'] at hw
        subst hw
        exact ⟨by simp, by intro c hc; simp at hc; subst hc; exact ha'⟩
      | cons b l' =>
        by_cases hb : wsChar b = true
        · simp [ha', hb] at hw
          rcases hw with rfl | hw
          · exact ⟨by simp, by intro c hc; simp at hc; subst hc; exact ha'⟩
          · exact ih w hw
        · have hb' : wsChar b = false := by simpa using hb
          simp only [ha', hb', Bool.false_eq_true, if_false] at hw
          cases hwl : wordsList (b :: l') with
          | nil => simp [hwl] at hw; subst hw
                   exact ⟨by simp, by intro c hc; simp at hc; subst hc; exact ha'⟩
          | cons w0 ws0 =>
            simp only [hwl] at hw
            simp at hw
            rcases hw with rfl | hw
            · have h0 := ih w0 (by rw [hwl]; simp)
              refine ⟨by simp, ?_⟩
              intro c hc
              simp at hc
              rcases hc with rfl | hc
              · exact ha'
              · exact h0.2 c hc
            · exact ih w (by rw [hwl]; simp [hw])

/-- Two strings with the same character data are equal. -/
theorem stringDataEq (a b : String) (h : a.data = b.data) : a = b := by
  cases a; cases b; simp_all

/-- String concatenation is associative. -/
theorem strAppend_assoc (a b c : String) : (a ++ b) ++ c = a ++ (b ++ c) := by
  apply stringDataEq
  simp [String.data_append, List.append_assoc]

/-- Unfolding a whitespace-canonical string into its words. -/
theorem wsCanonical_data (s : String) (h : wsCanonical s) :
    intercalateList [' '] (wordsList s.data) = s.data := by
  unfold wsCanonical joinSpace splitWs at h
  have h2 := congrArg String.data h
  have hid : (String.data ∘ String.mk) = id := funext fun l => rfl
  simpa [List.map_map, hid] using h2

/-- The head of a single-space join of good tokens is not
whitespace. -/
theorem intercalate_head_good (toks : List (List Char))
    (h : ∀ t ∈ toks, t ≠ [] ∧ ∀ c ∈ t, wsChar c = false) :
    ∀ c, (intercalateList [' '] toks).head? = some c → wsChar c = false := by
  cases toks with
  | nil => intro c hc; simp [intercalateList] at hc
  | cons t ts =>
    intro c hc
    obtain ⟨ht1, ht2⟩ := h t (by simp)
    obtain ⟨d, t', rfl⟩ := List.exists_cons_of_ne_nil ht1
    cases ts with
    | nil => simp [intercalateList] at hc; subst hc; exact ht2 _ (by simp)
    | cons t2 ts' =>
      have : intercalateList [' '] ((d :: t') :: t2 :: ts') =
          d :: (t' ++ ' ' :: intercalateList [' '] (t2 :: ts')) := by
        simp [intercalateList]
      rw [this] at hc
      simp at hc
      subst hc
      exact ht2 _ (by simp)

/-- The last character of a single-space join of good tokens is not
whitespace. -/
theorem intercalate_getLast_good (toks : List (List Char))
    (h : ∀ t ∈ toks, t ≠ [] ∧ ∀ c ∈ t, wsChar c = false) :
    ∀ c, (intercalateList [' '] toks).getLast? = some c → wsChar c = false := by
  induction toks with
  | nil => intro c hc; simp [intercalateList] at hc
  | cons t ts ih =>
    intro c hc
    obtain ⟨ht1, ht2⟩ := h t (by simp)
    cases ts with
    | nil =>
      simp only [intercalateList] at hc
      exact ht2 c (List.mem_of_mem_getLast? hc)
    | cons t2 ts' =>
      have hne : intercalateList [' '] (t2 :: ts') ≠ [] := by
        obtain ⟨h1, -⟩ := h t2 (by simp)
        obtain ⟨d, t', rfl⟩ := List.exists_cons_of_ne_nil h1
        cases ts' <;> simp [intercalateList]
      have hstep : intercalateList [' '] (t :: t2 :: ts') =
          (t ++ [' ']) ++ intercalateList [' '] (t2 :: ts') := by
        simp [intercalateList]
      rw [hstep, List.getLast?_append_of_ne_nil _ hne] at hc
      exact ih (fun u hu => h u (by simp [hu])) c hc

/-- Every character of a single-space join of good tokens is a space or
non-whitespace. -/
theorem intercalate_chars_good (toks : List (List Char))
    (h : ∀ t ∈ toks, ∀ c ∈ t, wsChar c = false) :
    ∀ c ∈ intercalateList [' '] toks, c = ' ' ∨ wsChar c = false := by
  induction toks with
  | nil => simp [intercalateList]
  | cons t ts ih =>
    cases ts with
    | nil =>
      intro c hc
      simp only [intercalateList] at hc
      exact .inr (h t (by simp) c hc)
    | cons t2 ts' =>
      intro c hc
      have hstep : intercalateList [' '] (t :: t2 :: ts') =
          t ++ ' ' :: intercalateList [' '] (t2 :: ts') := by
        simp [intercalateList]
      rw [hstep] at hc
      simp at hc
      rcases hc with hc | rfl | hc
      · exact .inr (h t (by simp) c hc)
      · exact .inl rfl
      · exact ih (fun u hu => h u (by simp [hu])) c hc

/-- `dropWhile` is the identity when the head does not satisfy the
predicate. -/
theorem dropWhile_eq_self_of_head (p : Char → Bool) (l : List Char)
    (h : ∀ c, l.head? = some c → p c = false) : l.dropWhile p = l := by
  cases l with
  | nil => rfl
  | cons a t => simp [List.dropWhile_cons, h a rfl]

/-- Trailing trim is the identity when the last character is not
whitespace. -/
theorem trimEndList_eq_self (l : List Char)
    (h : ∀ c, l.getLast? = some c → wsChar c = false) : trimEndList l = l := by
  unfold trimEndList
  rw [dropWhile_eq_self_of_head wsChar l.reverse
    (fun c hc => h c (by rwa [List.head?_reverse] at hc))]
  exact l.reverse_reverse

/-- Trim is the identity when neither end is whitespace. -/
theorem trimList_eq_self (l : List Char)
    (hh : ∀ c, l.head? = some c → wsChar c = false)
    (hl : ∀ c, l.getLast? = some c → wsChar c = false) : trimList l = l := by
  unfold trimList
  rw [dropWhile_eq_self_of_head wsChar l hh]
  exact trimEndList_eq_self l hl

/-- A trailing whitespace character is removed by the trailing trim. -/
theorem trimEndList_append_ws (l : List Char) (c : Char) (h : wsChar c = true) :
    trimEndList (l ++ [c]) = trimEndList l := by
  unfold trimEndList
  rw [List.reverse_append]
  simp [List.dropWhile_cons, h]

/-- Splitting off the first separator. -/
theorem splitCharList_append (sep : Char) (a b : List Char) (h : sep ∉ a) :
    splitCharList sep (a ++ sep :: b) = a :: splitCharList sep b := by
  induction a with
  | nil => simp [splitCharList]
  | cons c a ih =>
    have hc : ¬ c = sep := by
      intro hcc
      exact h (by simp [hcc])
    have iha := ih (fun hm => h (by simp [hm]))
    rw [List.cons_append, splitCharList.eq_def]
    simp only [hc, if_false]
    rw [iha]

/-- String-level version of `splitCharList_append` for newlines. -/
theorem jsSplitChar_line (s t : String) (h : ('\n' : Char) ∉ s.data) :
    jsSplitChar (s ++ "\n" ++ t) '\n' = s :: jsSplitChar t '\n' := by
  unfold jsSplitChar
  have hdata : (s ++ "\n" ++ t).data = s.data ++ '\n' :: t.data := by
    simp [String.data_append]
  rw [hdata, splitCharList_append '\n' s.data t.data h]
  simp

/-- Appending the empty string. -/
theorem strAppend_empty (s : String) : s ++ "" = s :=
  stringDataEq _ _ (by simp [String.data_append])

/-- Prepending the empty string. -/
theorem strEmpty_append (s : String) : "" ++ s = s :=
  stringDataEq _ _ (by simp [String.data_append])

/-- The export loop body, written as a right fold. -/
def exportBody (zoneName : String) : List DnsRecord → String
  | [] => ""
  | r :: rs => exportLineCore zoneName r ++ "\n" ++ exportBody zoneName rs

/-- The source's `zoneFile +=` loop is the concatenation of the
per-record lines. -/
theorem export_fold_eq (zoneName : String) (rs : List DnsRecord) :
    ∀ init, rs.foldl (fun acc r => acc ++ (exportLineCore zoneName r ++ "\n")) init =
      init ++ exportBody zoneName rs := by
  induction rs with
  | nil => intro init; simp [exportBody, strAppend_empty]
  | cons r rs ih =>
    intro init
    simp only [List.foldl_cons, exportBody, ih, strAppend_assoc]

/-- The exported file, regrouped line by line. -/
theorem exportZoneFile_form (rs : List DnsRecord) (z : String) :
    exportZoneFile rs z =
      (("$ORIGIN " ++ z ++ ".") ++ "\n") ++
        (("$TTL 300" ++ "\n") ++ (("" ++ "\n") ++ exportBody z rs)) := by
  unfold exportZoneFile
  have hfold := export_fold_eq z rs ""
  have hinit : ∀ s : String,
      (fun acc r => acc ++ exportLineCore z r ++ "\n") =
        (fun acc r => acc ++ (exportLineCore z r ++ "\n")) := by
    intro s
    funext acc r
    rw [strAppend_assoc]
  rw [hinit "", hfold, strEmpty_append]
  apply stringDataEq
  have l1 : (".\n$TTL 300\n\n" : String).data =
      ['.', '\n', '$', 'T', 'T', 'L', ' ', '3', '0', '0', '\n', '\n'] := rfl
  have l2 : ("." : String).data = ['.'] := rfl
  have l3 : ("\n" : String).data = ['\n'] := rfl
  have l4 : ("$TTL 300" : String).data = ['$', 'T', 'T', 'L', ' ', '3', '0', '0'] := rfl
  have l5 : ("" : String).data = [] := rfl
  simp only [String.data_append, l1, l2, l3, l4, l5, List.append_assoc,
    List.cons_append, List.nil_append]

/-- The body splits into one line per record plus the final empty
line. -/
theorem exportBody_lines (z : String) (rs : List DnsRecord)
    (h : ∀ r ∈ rs, ('\n' : Char) ∉ (exportLineCore z r).data) :
    jsSplitChar (exportBody z rs) '\n' = rs.map (exportLineCore z) ++ [""] := by
  induction rs with
  | nil => rfl
  | cons r rs ih =>
    show jsSplitChar (exportLineCore z r ++ "\n" ++ exportBody z rs) '\n' = _
    rw [jsSplitChar_line _ _ (h r (by simp)), ih (fun q hq => h q (by simp [hq]))]
    simp

/-- The whole exported file splits into the two header lines, a blank
line, the record lines, and a final empty line. -/
theorem exportZoneFile_lines (rs : List DnsRecord) (z : String)
    (hz : ('\n' : Char) ∉ z.data)
    (h : ∀ r ∈ rs, ('\n' : Char) ∉ (exportLineCore z r).data) :
    jsSplitChar (exportZoneFile rs z) '\n' =
      ("$ORIGIN " ++ z ++ ".") :: "$TTL 300" :: "" ::
        (rs.map (exportLineCore z) ++ [""]) := by
  rw [exportZoneFile_form]
  rw [show (("$ORIGIN " ++ z ++ ".") ++ "\n") ++
        (("$TTL 300" ++ "\n") ++ (("" ++ "\n") ++ exportBody z rs)) =
      ("$ORIGIN " ++ z ++ ".") ++ "\n" ++
        (("$TTL 300" ++ "\n") ++ (("" ++ "\n") ++ exportBody z rs)) from rfl]
  rw [jsSplitChar_line _ _ (by
    simp [String.data_append]
    exact hz)]
  rw [show (("$TTL 300" ++ "\n") ++ (("" ++ "\n") ++ exportBody z rs)) =
      "$TTL 300" ++ "\n" ++ (("" ++ "\n") ++ exportBody z rs) from rfl]
  rw [jsSplitChar_line _ _ (by decide)]
  rw [show (("" ++ "\n") ++ exportBody z rs) =
      "" ++ "\n" ++ exportBody z rs from rfl]
  rw [jsSplitChar_line _ _ (by decide)]
  rw [exportBody_lines z rs h]

/-- Type tokens are nonempty and whitespace-free. -/
theorem typeToString_good (t : RecordType) :
    (typeToString t).data ≠ [] ∧ ∀ c ∈ (typeToString t).data, wsChar c = false := by
  cases t <;> decide

/-- `parseZoneFile` accepts exactly the non-PTR type tokens. -/
theorem parseRecordType_typeToString (t : RecordType) (h : t ≠ .PTR) :
    parseRecordType (typeToString t) = some t := by
  cases t <;> first | decide | exact absurd rfl h

/-- The character data of an apex export line. -/
theorem exportLineCore_apex (z : String) (r : DnsRecord)
    (hname : r.name = z) (hpr : jsTruthyNum r.priority = false)
    (httl : 0 < r.ttl) :
    (exportLineCore z r).data =
      '@' :: '\t' :: (natDigits r.ttl.toNat ++ '\t' :: 'I' :: 'N' :: '\t' ::
        ((typeToString r.type).data ++ '\t' :: r.content.data)) := by
  unfold exportLineCore
  rw [if_pos hname, if_neg (by simp [hpr])]
  have hz : ¬ r.ttl = 0 := by omega
  have httlv : jsOrInt (some r.ttl) 300 = r.ttl := by
    simp [jsOrInt, hz]
  have hrepr : intRepr r.ttl = natRepr r.ttl.toNat := by
    unfold intRepr
    rw [if_neg (by omega)]
  dsimp only
  rw [httlv, hrepr]
  have l1 : ("@" : String).data = ['@'] := rfl
  have l2 : ("\t" : String).data = ['\t'] := rfl
  have l3 : ("\tIN\t" : String).data = ['\t', 'I', 'N', '\t'] := rfl
  have l4 : (natRepr r.ttl.toNat).data = natDigits r.ttl.toNat := rfl
  simp only [strAppend_empty, String.data_append, l1, l2, l3, l4,
    List.cons_append, List.nil_append, List.append_assoc]

/-- Word-splitting the trimmed apex line yields the four fixed fields
followed by the content words. -/
theorem words_trim_apex_line (ttlD tyD contD : List Char)
    (httl1 : ttlD ≠ []) (httl2 : ∀ c ∈ ttlD, wsChar c = false)
    (hty1 : tyD ≠ []) (hty2 : ∀ c ∈ tyD, wsChar c = false)
    (hcanon : intercalateList [' '] (wordsList contD) = contD) :
    wordsList (trimList ('@' :: '\t' :: (ttlD ++ '\t' :: 'I' :: 'N' :: '\t' ::
        (tyD ++ '\t' :: contD)))) =
      ['@'] :: ttlD :: ['I', 'N'] :: tyD :: wordsList contD := by
  have hgood := wordsList_good contD
  by_cases hc : contD = []
  · subst hc
    have hshape : ('@' :: '\t' :: (ttlD ++ '\t' :: 'I' :: 'N' :: '\t' ::
        (tyD ++ '\t' :: ([] : List Char)))) =
        ('@' :: '\t' :: (ttlD ++ '\t' :: 'I' :: 'N' :: '\t' :: tyD)) ++ ['\t'] := by
      simp
    rw [hshape]
    have htr : trimList (('@' :: '\t' :: (ttlD ++ '\t' :: 'I' :: 'N' :: '\t' ::
        tyD)) ++ ['\t']) =
        '@' :: '\t' :: (ttlD ++ '\t' :: 'I' :: 'N' :: '\t' :: tyD) := by
      unfold trimList
      rw [dropWhile_eq_self_of_head wsChar _ (by
        intro c hc
        simp at hc
        subst hc
        decide)]
      rw [trimEndList_append_ws _ '\t' (by decide)]
      apply trimEndList_eq_self
      intro c hc
      rw [show ('@' :: '\t' :: (ttlD ++ '\t' :: 'I' :: 'N' :: '\t' :: tyD)) =
          ('@' :: '\t' :: ttlD ++ '\t' :: 'I' :: 'N' :: '\t' :: []) ++ tyD by simp] at hc
      rw [List.getLast?_append_of_ne_nil _ hty1] at hc
      exact hty2 c (List.mem_of_mem_getLast? hc)
    rw [htr]
    have h1 : wordsList ('@' :: '\t' :: (ttlD ++ '\t' :: 'I' :: 'N' :: '\t' ::
        tyD)) = ['@'] :: wordsList (ttlD ++ '\t' :: 'I' :: 'N' :: '\t' :: tyD) := by
      have := wordsList_word_append ['@'] (by simp) (by decide) '\t' (by decide)
        (ttlD ++ '\t' :: 'I' :: 'N' :: '\t' :: tyD)
      simpa using this
    have h2 : wordsList (ttlD ++ '\t' :: 'I' :: 'N' :: '\t' :: tyD) =
        ttlD :: wordsList ('I' :: 'N' :: '\t' :: tyD) := by
      have := wordsList_word_append ttlD httl1 httl2 '\t' (by decide)
        ('I' :: 'N' :: '\t' :: tyD)
      simpa using this
    have h3 : wordsList ('I' :: 'N' :: '\t' :: tyD) =
        ['I', 'N'] :: wordsList tyD := by
      have := wordsList_word_append ['I', 'N'] (by simp) (by decide) '\t'
        (by decide) tyD
      simpa using this
    rw [h1, h2, h3, wordsList_word tyD hty1 hty2]
    simp [wordsList]
  · have hhead : ∀ c, contD.head? = some c → wsChar c = false := by
      intro c hc
      rw [← hcanon] at hc
      exact intercalate_head_good _ (fun t ht => hgood t ht) c hc
    have hlast : ∀ c, contD.getLast? = some c → wsChar c = false := by
      intro c hc
      rw [← hcanon] at hc
      exact intercalate_getLast_good _ (fun t ht => hgood t ht) c hc
    have htr : trimList ('@' :: '\t' :: (ttlD ++ '\t' :: 'I' :: 'N' :: '\t' ::
        (tyD ++ '\t' :: contD))) =
        '@' :: '\t' :: (ttlD ++ '\t' :: 'I' :: 'N' :: '\t' ::
          (tyD ++ '\t' :: contD)) := by
      apply trimList_eq_self
      · intro c hc
        simp at hc
        subst hc
        decide
      · intro c hlc
        rw [show ('@' :: '\t' :: (ttlD ++ '\t' :: 'I' :: 'N' :: '\t' ::
            (tyD ++ '\t' :: contD))) =
            ('@' :: '\t' :: ttlD ++ '\t' :: 'I' :: 'N' :: '\t' :: tyD ++
              ['\t']) ++ contD by simp] at hlc
        rw [List.getLast?_append_of_ne_nil _ hc] at hlc
        exact hlast c hlc
    rw [htr]
    have h1 : wordsList ('@' :: '\t' :: (ttlD ++ '\t' :: 'I' :: 'N' :: '\t' ::
        (tyD ++ '\t' :: contD))) =
        ['@'] :: wordsList (ttlD ++ '\t' :: 'I' :: 'N' :: '\t' ::
          (tyD ++ '\t' :: contD)) := by
      have := wordsList_word_append ['@'] (by simp) (by decide) '\t' (by decide)
        (ttlD ++ '\t' :: 'I' :: 'N' :: '\t' :: (tyD ++ '\t' :: contD))
      simpa using this
    have h2 : wordsList (ttlD ++ '\t' :: 'I' :: 'N' :: '\t' ::
        (tyD ++ '\t' :: contD)) =
        ttlD :: wordsList ('I' :: 'N' :: '\t' :: (tyD ++ '\t' :: contD)) := by
      have := wordsList_word_append ttlD httl1 httl2 '\t' (by decide)
        ('I' :: 'N' :: '\t' :: (tyD ++ '\t' :: contD))
      simpa using this
    have h3 : wordsList ('I' :: 'N' :: '\t' :: (tyD ++ '\t' :: contD)) =
        ['I', 'N'] :: wordsList (tyD ++ '\t' :: contD) := by
      have := wordsList_word_append ['I', 'N'] (by simp) (by decide) '\t'
        (by decide) (tyD ++ '\t' :: contD)
      simpa using this
    have h4 : wordsList (tyD ++ '\t' :: contD) = tyD :: wordsList contD :=
      wordsList_word_append tyD hty1 hty2 '\t' (by decide) contD
    rw [h1, h2, h3, h4]

/-- Full evaluation of the line step on a record line whose first field
is `@`: the emitted record, field by field, in terms of the split
fields. -/
theorem zoneLineStep_record_full (dttl : Int) (origin : String) (l : String)
    (ty : RecordType) (tl : List Char)
    (hhead : (jsTrim l).data = '@' :: tl)
    (hat : (splitWs (jsTrim l)).headD "" = "@")
    (hlen : (splitWs (jsTrim l)).length ≥ 4)
    (hty : parseRecordType ((splitWs (jsTrim l)).getD 3 "") = some ty) :
    zoneLineStep dttl origin l = .ok ((dttl, origin),
      some { type := ty
             name := stripFinalDot origin
             content := joinSpace ((splitWs (jsTrim l)).drop 4)
             ttl := jsOrNum (jsParseIntOpt ((splitWs (jsTrim l)).get? 1)) dttl
             proxied := some false
             priority :=
               if ty = .MX ∧ (splitWs (jsTrim l)).length ≥ 5 then
                 some (jsParseIntOpt ((splitWs (jsTrim l)).get? 4))
               else none }) := by
  have hne : ¬ jsTrim l = "" := by
    intro he
    have h0 : ("" : String).data = [] := rfl
    rw [he, h0] at hhead
    exact List.noConfusion hhead
  have hg1 : jsStartsWith (jsTrim l) ";" = false := by
    have hd : (";" : String).data = [';'] := rfl
    unfold jsStartsWith
    rw [hd, hhead]
    simp [List.isPrefixOf]
  have hg3 : jsStartsWith (jsTrim l) "$TTL" = false := by
    have hd : ("$TTL" : String).data = ['$', 'T', 'T', 'L'] := rfl
    unfold jsStartsWith
    rw [hd, hhead]
    simp [List.isPrefixOf]
  have hg4 : jsStartsWith (jsTrim l) "$ORIGIN" = false := by
    have hd : ("$ORIGIN" : String).data = ['$', 'O', 'R', 'I', 'G', 'I', 'N'] := rfl
    unfold jsStartsWith
    rw [hd, hhead]
    simp [List.isPrefixOf]
  unfold zoneLineStep
  dsimp only
  rw [if_neg (by simp [hg1, hne]), if_neg (by simp [hg3]),
      if_neg (by simp [hg4]), if_pos hlen, hty, hat, if_pos rfl]
  split
  · next heq => exact absurd heq (by simp)
  · next ty2 hmx =>
    obtain rfl := Option.some_injective _ hmx
    split
    · next hcond => rfl
    · next hcond => rfl

/-- Trailing trim of a list with a non-whitespace head keeps the
head. -/
theorem trimEndList_cons_not_ws (c : Char) (h : wsChar c = false)
    (xs : List Char) : ∃ tl, trimEndList (c :: xs) = c :: tl := by
  unfold trimEndList
  rw [List.reverse_cons, List.dropWhile_append]
  split
  · refine ⟨[], ?_⟩
    simp [List.dropWhile_cons, h]
  · refine ⟨(xs.reverse.dropWhile wsChar).reverse, ?_⟩
    simp

/-- Trim of a list with a non-whitespace head keeps the head. -/
theorem trimList_cons_not_ws (c : Char) (h : wsChar c = false)
    (xs : List Char) : ∃ tl, trimList (c :: xs) = c :: tl := by
  unfold trimList
  rw [List.dropWhile_cons]
  simp only [h, Bool.false_eq_true, if_false]
  exact trimEndList_cons_not_ws c h xs

/-- Evaluation of the line step on an exported apex line: it
reconstructs the record's type, name, content and ttl, marks it
unproxied, and — for MX with nonempty content — parses a priority out
of the content's first word. -/
theorem zoneLineStep_exportLine (z : String) (r : DnsRecord)
    (hzdot : jsEndsWith z "." = false)
    (hname : r.name = z) (hptr : r.type ≠ .PTR) (httl : 0 < r.ttl)
    (hpr : jsTruthyNum r.priority = false) (hcanon : wsCanonical r.content) :
    zoneLineStep 300 z (exportLineCore z r) = .ok ((300, z),
      some { type := r.type, name := r.name, content := r.content
             ttl := r.ttl, proxied := some false
             priority :=
               if r.type = .MX ∧ splitWs r.content ≠ [] then
                 some (jsParseIntOpt ((splitWs r.content).get? 0))
               else none }) := by
  obtain ⟨httlne, httldig, httlval⟩ := natDigits_spec r.ttl.toNat
  have httlws : ∀ c ∈ natDigits r.ttl.toNat, wsChar c = false :=
    fun c hc => digit_not_ws c (httldig c hc)
  obtain ⟨htyne, htyws⟩ := typeToString_good r.type
  have hcanonD := wsCanonical_data r.content hcanon
  have hdata := exportLineCore_apex z r hname hpr httl
  have htrimdata : (jsTrim (exportLineCore z r)).data =
      trimList (exportLineCore z r).data := rfl
  have hwords : wordsList ((jsTrim (exportLineCore z r)).data) =
      ['@'] :: natDigits r.ttl.toNat :: ['I', 'N'] ::
        (typeToString r.type).data :: wordsList r.content.data := by
    rw [htrimdata, hdata]
    exact words_trim_apex_line _ _ _ httlne httlws htyne htyws hcanonD
  have hparts : splitWs (jsTrim (exportLineCore z r)) =
      "@" :: natRepr r.ttl.toNat :: "IN" :: typeToString r.type ::
        (wordsList r.content.data).map String.mk := by
    unfold splitWs
    rw [hwords]
    rfl
  have hsplitWsContent : splitWs r.content =
      (wordsList r.content.data).map String.mk := rfl
  obtain ⟨tl, htl⟩ := by
    have := trimList_cons_not_ws '@' (by decide)
      ('\t' :: (natDigits r.ttl.toNat ++ '\t' :: 'I' :: 'N' :: '\t' ::
        ((typeToString r.type).data ++ '\t' :: r.content.data)))
    exact this
  have hhead : (jsTrim (exportLineCore z r)).data = '@' :: tl := by
    rw [htrimdata, hdata]
    exact htl
  have hat : (splitWs (jsTrim (exportLineCore z r))).headD "" = "@" := by
    rw [hparts]; rfl
  have hlen : (splitWs (jsTrim (exportLineCore z r))).length ≥ 4 := by
    rw [hparts]; simp
  have hty : parseRecordType
      ((splitWs (jsTrim (exportLineCore z r))).getD 3 "") = some r.type := by
    rw [hparts]
    exact parseRecordType_typeToString r.type hptr
  rw [zoneLineStep_record_full 300 z _ r.type tl hhead hat hlen hty]
  have hsd : stripFinalDot z = z := by
    unfold stripFinalDot
    rw [if_neg (by simp [hzdot])]
  have hcontent : joinSpace
      (((splitWs (jsTrim (exportLineCore z r)))).drop 4) = r.content := by
    rw [hparts]
    show joinSpace ((wordsList r.content.data).map String.mk) = r.content
    unfold joinSpace
    apply stringDataEq
    have hid : (String.data ∘ String.mk) = id := funext fun l => rfl
    simp [List.map_map, hid, hcanonD]
  have httlp : jsOrNum (jsParseIntOpt
      ((splitWs (jsTrim (exportLineCore z r))).get? 1)) 300 = r.ttl := by
    rw [hparts]
    show jsOrNum (jsParseInt (natRepr r.ttl.toNat)) 300 = r.ttl
    have : jsParseInt (natRepr r.ttl.toNat) = .int r.ttl.toNat := by
      unfold jsParseInt natRepr
      show jsParseIntList (natDigits r.ttl.toNat) = _
      rw [jsParseIntList_digits _ httlne httldig, httlval]
    rw [this]
    have hnn : (r.ttl.toNat : Int) = r.ttl := Int.toNat_of_nonneg (by omega)
    simp [jsOrNum, hnn]
    omega
  have hlen5 : ((splitWs (jsTrim (exportLineCore z r))).length ≥ 5) ↔
      (splitWs r.content ≠ []) := by
    rw [hparts, hsplitWsContent]
    simp only [List.length_cons, List.length_map, ne_eq, List.map_eq_nil_iff]
    constructor
    · intro h5 hnil
      rw [hnil] at h5
      simp at h5
    · intro hne2
      have hpos : 0 < (wordsList r.content.data).length :=
        List.length_pos.mpr hne2
      omega
  have hlen5p : ((splitWs (jsTrim (exportLineCore z r))).length ≥ 5) =
      (splitWs r.content ≠ []) := propext hlen5
  have hget4 : (splitWs (jsTrim (exportLineCore z r))).get? 4 =
      (splitWs r.content).get? 0 := by
    rw [hparts, hsplitWsContent]
    rfl
  rw [hsd, hcontent, httlp, hget4]
  simp only [hlen5p, hname]

/-- One trailing dot is stripped from the `$ORIGIN` argument. -/
theorem stripTrailingDot_concat (z : String) :
    stripTrailingDot (z ++ ".") = z := by
  unfold stripTrailingDot
  rw [if_pos (by
    unfold jsEndsWith
    rw [show (z ++ "." : String).data = z.data ++ ['.'] by
      simp [String.data_append]]
    simp [List.isSuffixOf])]
  apply stringDataEq
  rw [show (z ++ "." : String).data = z.data ++ ['.'] by
    simp [String.data_append]]
  simp

/-- Evaluation of the line step on the exported `$ORIGIN` header:
it replaces the origin with the zone name. -/
theorem zoneLineStep_originHeader (z : String)
    (hz : ∀ c ∈ z.data, wsChar c = false) (dttl : Int) (origin : String) :
    zoneLineStep dttl origin ("$ORIGIN " ++ z ++ ".") =
      .ok ((dttl, z), none) := by
  have hdata : ("$ORIGIN " ++ z ++ "." : String).data =
      '$' :: 'O' :: 'R' :: 'I' :: 'G' :: 'I' :: 'N' :: ' ' ::
        (z.data ++ ['.']) := by
    have l1 : ("$ORIGIN " : String).data =
      ['$', 'O', 'R', 'I', 'G', 'I', 'N', ' '] := rfl
    have l2 : ("." : String).data = ['.'] := rfl
    simp [String.data_append, l1, l2]
  have htrim : (jsTrim ("$ORIGIN " ++ z ++ ".")).data =
      '$' :: 'O' :: 'R' :: 'I' :: 'G' :: 'I' :: 'N' :: ' ' ::
        (z.data ++ ['.']) := by
    show trimList ("$ORIGIN " ++ z ++ "." : String).data = _
    rw [hdata]
    apply trimList_eq_self
    · intro c hc
      simp at hc
      subst hc
      decide
    · intro c hc
      rw [show ('$' :: 'O' :: 'R' :: 'I' :: 'G' :: 'I' :: 'N' :: ' ' ::
          (z.data ++ ['.'])) =
          ('$' :: 'O' :: 'R' :: 'I' :: 'G' :: 'I' :: 'N' :: ' ' :: z.data) ++
            ['.'] by simp] at hc
      rw [List.getLast?_concat] at hc
      obtain rfl := Option.some_injective _ hc.symm
      decide
  have hwords : wordsList ((jsTrim ("$ORIGIN " ++ z ++ ".")).data) =
      [['$', 'O', 'R', 'I', 'G', 'I', 'N'], z.data ++ ['.']] := by
    rw [htrim]
    have h1 := wordsList_word_append ['$', 'O', 'R', 'I', 'G', 'I', 'N']
      (by simp) (by decide) ' ' (by decide) (z.data ++ ['.'])
    simp only [List.cons_append, List.nil_append] at h1
    rw [h1]
    rw [wordsList_word (z.data ++ ['.']) (by simp) (by
      intro c hc
      simp at hc
      rcases hc with hc | rfl
      · exact hz c hc
      · decide)]
  have hne : ¬ jsTrim ("$ORIGIN " ++ z ++ ".") = "" := by
    intro he
    have := congrArg String.data he
    rw [htrim] at this
    exact List.noConfusion this
  have hg1 : jsStartsWith (jsTrim ("$ORIGIN " ++ z ++ ".")) ";" = false := by
    unfold jsStartsWith
    rw [show (";" : String).data = [';'] from rfl, htrim]
    simp [List.isPrefixOf]
  have hg3 : jsStartsWith (jsTrim ("$ORIGIN " ++ z ++ ".")) "$TTL" = false := by
    unfold jsStartsWith
    rw [show ("$TTL" : String).data = ['$', 'T', 'T', 'L'] from rfl, htrim]
    simp [List.isPrefixOf]
  have hg4 : jsStartsWith (jsTrim ("$ORIGIN " ++ z ++ ".")) "$ORIGIN" = true := by
    unfold jsStartsWith
    rw [show ("$ORIGIN" : String).data =
      ['$', 'O', 'R', 'I', 'G', 'I', 'N'] from rfl, htrim]
    simp [List.isPrefixOf]
  have hget : (splitWs (jsTrim ("$ORIGIN " ++ z ++ "."))).get? 1 =
      some (z ++ ".") := by
    unfold splitWs
    rw [hwords]
    have : String.mk (z.data ++ ['.']) = z ++ "." := by
      apply stringDataEq
      simp [String.data_append]
    simp [this]
  unfold zoneLineStep
  dsimp only
  rw [if_neg (by simp [hg1, hne]), if_neg (by simp [hg3]), if_pos (by simp [hg4]),
    hget]
  show Except.ok ((dttl, stripTrailingDot (z ++ ".")), none) = _
  rw [stripTrailingDot_concat]

/-- Evaluation of the line step on the exported `$TTL 300` header. -/
theorem zoneLineStep_ttlHeader (dttl : Int) (origin : String) :
    zoneLineStep dttl origin "$TTL 300" = .ok ((300, origin), none) := rfl

/-- Evaluation of the line step on an empty line. -/
theorem zoneLineStep_empty (dttl : Int) (origin : String) :
    zoneLineStep dttl origin "" = .ok ((dttl, origin), none) := rfl

/-- An exported apex line contains no newline. -/
theorem exportLineCore_no_newline (z : String) (r : DnsRecord)
    (hname : r.name = z) (hpr : jsTruthyNum r.priority = false)
    (httl : 0 < r.ttl) (hcanon : wsCanonical r.content) :
    ('\n' : Char) ∉ (exportLineCore z r).data := by
  have hcanonD := wsCanonical_data r.content hcanon
  rw [exportLineCore_apex z r hname hpr httl]
  intro hmem
  simp only [List.mem_cons, List.mem_append] at hmem
  rcases hmem with h | h | (h | (h | (h | (h | (h | ((h | (h | h)))))))) <;>
    first
      | exact absurd h (by decide)
      | exact absurd ((natDigits_spec r.ttl.toNat).2.1 _ h) (by decide)
      | exact absurd ((typeToString_good r.type).2 _ h) (by decide)
      | { have hcc := intercalate_chars_good (wordsList r.content.data)
            (fun t ht => (wordsList_good _ t ht).2) '\n'
            (by rw [hcanonD]; exact h)
          rcases hcc with h2 | h2 <;> exact absurd h2 (by decide) }

/-- One resolved step of the line loop. -/
theorem parseZoneLines_cons_ok (d : Int) (o : String) (l : String)
    (d' : Int) (o' : String) (rec? : Option CreateDnsRecord)
    (rest : List String)
    (hstep : zoneLineStep d o l = .ok ((d', o'), rec?)) :
    parseZoneLines d o (l :: rest) =
      (parseZoneLines d' o' rest).map (fun rs => rec?.toList ++ rs) := by
  simp only [parseZoneLines, hstep, Bind.bind, Except.bind]
  cases h2 : parseZoneLines d' o' rest <;> simp [Except.map, h2]

/-- Parsing the exported record lines from state `(300, zoneName)`
reconstructs each record in order. -/
theorem parse_exportBody_lines (z : String) (rs : List DnsRecord)
    (hzdot : jsEndsWith z "." = false)
    (h : ∀ r ∈ rs, r.name = z ∧ r.type ≠ .PTR ∧ 0 < r.ttl ∧
      jsTruthyNum r.priority = false ∧ wsCanonical r.content) :
    parseZoneLines 300 z (rs.map (exportLineCore z) ++ [""]) =
      .ok (rs.map (fun r =>
        { type := r.type, name := r.name, content := r.content
          ttl := r.ttl, proxied := some false
          priority :=
            if r.type = .MX ∧ splitWs r.content ≠ [] then
              some (jsParseIntOpt ((splitWs r.content).get? 0))
            else none })) := by
  induction rs with
  | nil => rfl
  | cons r rs ih =>
    obtain ⟨h1, h2, h3, h4, h5⟩ := h r (by simp)
    rw [List.map_cons, List.cons_append,
      parseZoneLines_cons_ok 300 z _ 300 z _ _
        (zoneLineStep_exportLine z r hzdot h1 h2 h3 h4 h5),
      ih (fun q hq => h q (by simp [hq]))]
    simp [Except.map]

/-- **C2 (amended)** — The zone-file round trip, restricted to what the
code actually preserves: for a record set whose records all sit at the
zone apex (`name = zoneName`), have a non-PTR type, a positive TTL, no
truthy priority, and whitespace-canonical content (and a zone name free
of whitespace without a trailing dot), re-importing the export yields
exactly one record per input with the same type, name, content and TTL,
`proxied = false`; an MX record with nonempty content additionally
gains a priority parsed from its content's first word.  (Outside this
fragment the round trip fails: subdomain names come back relative and
truthy priorities are prepended to the content.) -/
theorem zoneFile_roundtrip_apex (z : String) (rs : List DnsRecord)
    (hz : ∀ c ∈ z.data, wsChar c = false)
    (hzdot : jsEndsWith z "." = false)
    (h : ∀ r ∈ rs, r.name = z ∧ r.type ≠ .PTR ∧ 0 < r.ttl ∧
      jsTruthyNum r.priority = false ∧ wsCanonical r.content) :
    parseZoneFile (exportZoneFile rs z) =
      .ok (rs.map (fun r =>
        { type := r.type, name := r.name, content := r.content
          ttl := r.ttl, proxied := some false
          priority :=
            if r.type = .MX ∧ splitWs r.content ≠ [] then
              some (jsParseIntOpt ((splitWs r.content).get? 0))
            else none })) := by
  unfold parseZoneFile
  rw [exportZoneFile_lines rs z
      (fun hmem => absurd (hz '\n' hmem) (by decide))
      (fun r hr => exportLineCore_no_newline z r (h r hr).1 (h r hr).2.2.2.1
        (h r hr).2.2.1 (h r hr).2.2.2.2)]
  rw [parseZoneLines_cons_ok 300 "" _ 300 z none _
      (zoneLineStep_originHeader z hz 300 "")]
  rw [parseZoneLines_cons_ok 300 z _ 300 z none _
      (zoneLineStep_ttlHeader 300 z)]
  rw [parseZoneLines_cons_ok 300 z _ 300 z none _
      (zoneLineStep_empty 300 z)]
  rw [parse_exportBody_lines z rs hzdot h]
  simp [Except.map]

/-- Apex record fixture for the round-trip witness. -/
def rtRecordA : DnsRecord :=
  { id := "w1", name := "example.com", type := .A
    content := "1.2.3.4", ttl := 300 }

/-- Apex TXT record fixture (content with an interior space) for the
round-trip witness. -/
def rtRecordTxt : DnsRecord :=
  { id := "w2", name := "example.com", type := .TXT
    content := "v=spf1 a", ttl := 120 }

/-- Witness for `zoneFile_roundtrip_apex` at a concrete record set. -/
theorem zoneFile_roundtrip_apex_witness :
    parseZoneFile (exportZoneFile [rtRecordA, rtRecordTxt] "example.com") =
      .ok [{ type := .A, name := "example.com", content := "1.2.3.4"
             ttl := 300, proxied := some false, priority := none },
           { type := .TXT, name := "example.com", content := "v=spf1 a"
             ttl := 120, proxied := some false, priority := none }] :=
  (zoneFile_roundtrip_apex "example.com" [rtRecordA, rtRecordTxt]
    (by decide) (by decide) (by decide)).trans (by decide)
